import Mathlib

/-!
Verification development for the `rmp` synchronous MessagePack decoding module
(`src/rmp/src/sync/decode/mod.rs`).

Bytes are modelled as `Nat` values (meaningful when `< 256`); machine integers
as `Nat`/`Int`.  A byte source is modelled explicitly: decoders take the source
state and return the `Except` result together with the updated state, mirroring
the Rust functions that mutate `rd : &mut R` in place and return a `Result`.
-/

namespace Rmp

/-- Modelled from the spec: the `Marker` enumeration (`rmp::Marker`, defined
outside this module) of every valid leading byte of a MessagePack value —
fixed small positive/negative integers, nil, booleans, floats, fixed and
variable-width integers, and string/binary/array/map/extension headers of
several size classes, per the MessagePack wire format the spec requires to be
matched bit-exactly. -/
inductive Marker
  | FixPos (v : Nat)
  | FixNeg (v : Int)
  | Null
  | Reserved
  | False
  | True
  | Bin8
  | Bin16
  | Bin32
  | Ext8
  | Ext16
  | Ext32
  | F32
  | F64
  | U8
  | U16
  | U32
  | U64
  | I8
  | I16
  | I32
  | I64
  | FixExt1
  | FixExt2
  | FixExt4
  | FixExt8
  | FixExt16
  | FixStr (len : Nat)
  | Str8
  | Str16
  | Str32
  | FixArray (len : Nat)
  | Array16
  | Array32
  | FixMap (len : Nat)
  | Map16
  | Map32
  deriving DecidableEq, Repr

/-- Modelled from the spec: `Marker::from_u8`, the total pure classification of
a leading byte (0x00–0xFF) into a marker variant.  Small positive integers
0x00–0x7F and small negative integers 0xE0–0xFF self-encode in the marker byte
(the negative byte is its two's-complement `i8` reading); fixmap/fixarray/fixstr
embed their count in the low bits; the remaining bytes 0xC0–0xDF each name one
fixed variant of the MessagePack format. -/
def Marker.fromU8 (b : Nat) : Marker :=
  if b ≤ 0x7f then .FixPos b
  else if b ≤ 0x8f then .FixMap (b - 0x80)
  else if b ≤ 0x9f then .FixArray (b - 0x90)
  else if b ≤ 0xbf then .FixStr (b - 0xa0)
  else if b = 0xc0 then .Null
  else if b = 0xc1 then .Reserved
  else if b = 0xc2 then .False
  else if b = 0xc3 then .True
  else if b = 0xc4 then .Bin8
  else if b = 0xc5 then .Bin16
  else if b = 0xc6 then .Bin32
  else if b = 0xc7 then .Ext8
  else if b = 0xc8 then .Ext16
  else if b = 0xc9 then .Ext32
  else if b = 0xca then .F32
  else if b = 0xcb then .F64
  else if b = 0xcc then .U8
  else if b = 0xcd then .U16
  else if b = 0xce then .U32
  else if b = 0xcf then .U64
  else if b = 0xd0 then .I8
  else if b = 0xd1 then .I16
  else if b = 0xd2 then .I32
  else if b = 0xd3 then .I64
  else if b = 0xd4 then .FixExt1
  else if b = 0xd5 then .FixExt2
  else if b = 0xd6 then .FixExt4
  else if b = 0xd7 then .FixExt8
  else if b = 0xd8 then .FixExt16
  else if b = 0xd9 then .Str8
  else if b = 0xda then .Str16
  else if b = 0xdb then .Str32
  else if b = 0xdc then .Array16
  else if b = 0xdd then .Array32
  else if b = 0xde then .Map16
  else if b = 0xdf then .Map32
  else .FixNeg ((b : Int) - 256)

/-- The ten integer-family marker variants accepted by `read_int`. -/
def Marker.isIntFamily : Marker → Bool
  | .FixPos _ => true
  | .FixNeg _ => true
  | .U8 => true
  | .U16 => true
  | .U32 => true
  | .U64 => true
  | .I8 => true
  | .I16 => true
  | .I32 => true
  | .I64 => true
  | _ => false

/-- Error of a failed marker read: wraps the byte-source error
(`MarkerReadError` in the source). -/
structure MarkerReadError (ε : Type) where
  e : ε
  deriving DecidableEq, Repr

/-- Error of a failed typed-value read (`ValueReadError` in the source). -/
inductive ValueReadError (ε : Type)
  | InvalidMarkerRead (e : ε)
  | InvalidDataRead (e : ε)
  | TypeMismatch (m : Marker)
  deriving DecidableEq, Repr

/-- Error of a failed generic numeric read (`NumValueReadError` in the
source): the value-read errors plus an out-of-range failure. -/
inductive NumValueReadError (ε : Type)
  | InvalidMarkerRead (e : ε)
  | InvalidDataRead (e : ε)
  | TypeMismatch (m : Marker)
  | OutOfRange
  deriving DecidableEq, Repr

/-- The sealed byte-source capability (`RmpRead` in the source):
`read_exact_buf` fills a buffer of `n` bytes from the source or fails with the
source's own error type, returning the updated source state either way. -/
class RmpRead (ρ : Type) (ε : outParam Type) where
  read_exact_buf : ρ → Nat → Except ε (List Nat) × ρ

/-- Big-endian value of a byte run (`byteorder::BigEndian` reads). -/
def beVal (bs : List Nat) : Nat :=
  bs.foldl (fun a b => a * 256 + b) 0

/-- Two's-complement reading of a `size`-byte unsigned value as a signed
integer. -/
def toSigned (size : Nat) (v : Nat) : Int :=
  if v < 2 ^ (size * 8 - 1) then (v : Int) else (v : Int) - 2 ^ (size * 8)

namespace RmpRead

variable {ρ ε : Type} [RmpRead ρ ε]

/-- `RmpRead::read_u8`: read a single byte via `read_exact_buf`. -/
def read_u8 (rd : ρ) : Except ε Nat × ρ :=
  match read_exact_buf rd 1 with
  | (.ok buf, rd') => (.ok (buf.headD 0), rd')
  | (.error e, rd') => (.error e, rd')

/-- Helper shared by the `read_data_*` functions generated by
`read_byteorder_utils!`: read `size` bytes and interpret them big-endian. -/
def read_beN (size : Nat) (rd : ρ) : Except ε Nat × ρ :=
  match read_exact_buf rd size with
  | (.ok buf, rd') => (.ok (beVal buf), rd')
  | (.error e, rd') => (.error e, rd')

/-- `read_data_u8`. -/
def read_data_u8 (rd : ρ) : Except ε Nat × ρ := read_u8 rd

/-- `read_data_u16`. -/
def read_data_u16 (rd : ρ) : Except ε Nat × ρ := read_beN 2 rd

/-- `read_data_u32`. -/
def read_data_u32 (rd : ρ) : Except ε Nat × ρ := read_beN 4 rd

/-- `read_data_u64`. -/
def read_data_u64 (rd : ρ) : Except ε Nat × ρ := read_beN 8 rd

/-- `read_data_i8`: a single byte reinterpreted as `i8`. -/
def read_data_i8 (rd : ρ) : Except ε Int × ρ :=
  match read_data_u8 rd with
  | (.ok v, rd') => (.ok (toSigned 1 v), rd')
  | (.error e, rd') => (.error e, rd')

/-- `read_data_i16`. -/
def read_data_i16 (rd : ρ) : Except ε Int × ρ :=
  match read_beN 2 rd with
  | (.ok v, rd') => (.ok (toSigned 2 v), rd')
  | (.error e, rd') => (.error e, rd')

/-- `read_data_i32`. -/
def read_data_i32 (rd : ρ) : Except ε Int × ρ :=
  match read_beN 4 rd with
  | (.ok v, rd') => (.ok (toSigned 4 v), rd')
  | (.error e, rd') => (.error e, rd')

/-- `read_data_i64`. -/
def read_data_i64 (rd : ρ) : Except ε Int × ρ :=
  match read_beN 8 rd with
  | (.ok v, rd') => (.ok (toSigned 8 v), rd')
  | (.error e, rd') => (.error e, rd')

end RmpRead

/-- Modelled from the spec: the error of the borrowed-slice byte source
(`BytesReadError::InsufficientBytes` of `decode::bytes`, outside this module):
a precisely reported unexpected-end-of-input condition carrying how many bytes
were expected, how many were actually available, and the position. -/
inductive BytesReadError
  | InsufficientBytes (expected actual position : Nat)
  deriving DecidableEq, Repr

/-- Modelled from the spec: the in-memory zero-copy slice source
(`decode::Bytes`, outside this module): the remaining bytes plus the running
position used for error reporting. -/
structure Bytes where
  bytes : List Nat
  currentPosition : Nat
  deriving DecidableEq, Repr

/-- Modelled from the spec: the slice implementation of `read_exact_buf`:
if enough bytes remain the buffer is filled and the cursor advances by exactly
`n`; otherwise it fails with `InsufficientBytes` leaving the source untouched
(the call is atomic relative to the caller). -/
def Bytes.read_exact_buf (s : Bytes) (n : Nat) : Except BytesReadError (List Nat) × Bytes :=
  if n ≤ s.bytes.length then
    (.ok (s.bytes.take n), ⟨s.bytes.drop n, s.currentPosition + n⟩)
  else
    (.error (.InsufficientBytes n s.bytes.length s.currentPosition), s)

instance : RmpRead Bytes BytesReadError where
  read_exact_buf := Bytes.read_exact_buf

/-- Modelled from the spec: the relevant `std::io::ErrorKind` values of the
streaming transport — the transient interruption signal (EINTR), the
end-of-input condition, and any other low-level fault (broken pipe,
permission fault, …) abstracted as a numeric code. -/
inductive ErrorKind
  | Interrupted
  | UnexpectedEof
  | Other (code : Nat)
  deriving DecidableEq, Repr

/-- Modelled from the spec: one observable response of a streaming transport
to a single low-level `read` call: it may deliver a byte, report end of
stream (a read of zero bytes), or fail with an error kind. -/
inductive StreamEvent
  | byte (b : Nat)
  | eof
  | fault (k : ErrorKind)
  deriving DecidableEq, Repr

/-- Modelled from the spec: a streaming byte source (`impl RmpRead for
T: std::io::Read`, whose `read_exact_buf` delegates to
`std::io::Read::read_exact`), given by the script of responses its underlying
transport will produce, one per low-level read. -/
structure StreamReader where
  events : List StreamEvent
  deriving DecidableEq, Repr

/-- Modelled from the spec: `std::io::Read::read_exact` over a scripted
transport.  It loops reading until the buffer is full: a delivered byte is
kept, a zero-byte read (or an exhausted transport) stops the loop and yields
the unexpected-end-of-input error, a transient interruption is retried
internally and transparently, and every other fault is surfaced immediately.
Bytes consumed before a failure are not restored. -/
def readExactStream : List StreamEvent → Nat → Except ErrorKind (List Nat) × List StreamEvent
  | evs, 0 => (.ok [], evs)
  | [], _ + 1 => (.error .UnexpectedEof, [])
  | .byte b :: evs, n + 1 =>
    match readExactStream evs n with
    | (.ok bs, evs') => (.ok (b :: bs), evs')
    | (.error e, evs') => (.error e, evs')
  | .eof :: evs, _ + 1 => (.error .UnexpectedEof, evs)
  | .fault k :: evs, n + 1 =>
    if k = .Interrupted then readExactStream evs (n + 1)
    else (.error k, evs)

/-- Modelled from the spec: the streaming implementation of `read_exact_buf`,
delegating to the `std::io::Read::read_exact` model. -/
def StreamReader.read_exact_buf (s : StreamReader) (n : Nat) :
    Except ErrorKind (List Nat) × StreamReader :=
  match readExactStream s.events n with
  | (res, evs') => (res, ⟨evs'⟩)

instance : RmpRead StreamReader ErrorKind where
  read_exact_buf := StreamReader.read_exact_buf

section Decoders

variable {ρ ε : Type} [RmpRead ρ ε]

open RmpRead

/-- `read_marker`: read a single byte and classify it as a MessagePack
marker. -/
def read_marker (rd : ρ) : Except (MarkerReadError ε) Marker × ρ :=
  match read_u8 rd with
  | (.ok b, rd') => (.ok (Marker.fromU8 b), rd')
  | (.error e, rd') => (.error ⟨e⟩, rd')

/-- `read_nil`: succeed exactly on the `Null` marker. -/
def read_nil (rd : ρ) : Except (ValueReadError ε) Unit × ρ :=
  match read_marker rd with
  | (.ok .Null, rd') => (.ok (), rd')
  | (.ok marker, rd') => (.error (.TypeMismatch marker), rd')
  | (.error e, rd') => (.error (.InvalidMarkerRead e.e), rd')

/-- `read_bool`: succeed exactly on the `True` and `False` markers. -/
def read_bool (rd : ρ) : Except (ValueReadError ε) Bool × ρ :=
  match read_marker rd with
  | (.ok .True, rd') => (.ok true, rd')
  | (.ok .False, rd') => (.ok false, rd')
  | (.ok marker, rd') => (.error (.TypeMismatch marker), rd')
  | (.error e, rd') => (.error (.InvalidMarkerRead e.e), rd')

/-- `read_array_len`: fixarray embedded count, or 16/32-bit big-endian
length payload. -/
def read_array_len (rd : ρ) : Except (ValueReadError ε) Nat × ρ :=
  match read_marker rd with
  | (.ok (.FixArray size), rd') => (.ok size, rd')
  | (.ok .Array16, rd') =>
    (match read_data_u16 rd' with
     | (.ok v, rd'') => (.ok v, rd'')
     | (.error e, rd'') => (.error (.InvalidDataRead e), rd''))
  | (.ok .Array32, rd') =>
    (match read_data_u32 rd' with
     | (.ok v, rd'') => (.ok v, rd'')
     | (.error e, rd'') => (.error (.InvalidDataRead e), rd''))
  | (.ok marker, rd') => (.error (.TypeMismatch marker), rd')
  | (.error e, rd') => (.error (.InvalidMarkerRead e.e), rd')

/-- `marker_to_len`: interpret an already-read marker as a map length,
reading the 16/32-bit payload when the marker calls for it. -/
def marker_to_len (rd : ρ) (marker : Marker) : Except (ValueReadError ε) Nat × ρ :=
  match marker with
  | .FixMap size => (.ok size, rd)
  | .Map16 =>
    (match read_data_u16 rd with
     | (.ok v, rd') => (.ok v, rd')
     | (.error e, rd') => (.error (.InvalidDataRead e), rd'))
  | .Map32 =>
    (match read_data_u32 rd with
     | (.ok v, rd') => (.ok v, rd')
     | (.error e, rd') => (.error (.InvalidDataRead e), rd'))
  | marker => (.error (.TypeMismatch marker), rd)

/-- `read_map_len`: read a marker, then delegate to `marker_to_len`. -/
def read_map_len (rd : ρ) : Except (ValueReadError ε) Nat × ρ :=
  match read_marker rd with
  | (.ok marker, rd') => marker_to_len rd' marker
  | (.error e, rd') => (.error (.InvalidMarkerRead e.e), rd')

/-- `read_bin_len`: `Bin8`/`Bin16`/`Bin32` markers with 8/16/32-bit
big-endian length payload. -/
def read_bin_len (rd : ρ) : Except (ValueReadError ε) Nat × ρ :=
  match read_marker rd with
  | (.ok .Bin8, rd') =>
    (match read_data_u8 rd' with
     | (.ok v, rd'') => (.ok v, rd'')
     | (.error e, rd'') => (.error (.InvalidDataRead e), rd''))
  | (.ok .Bin16, rd') =>
    (match read_data_u16 rd' with
     | (.ok v, rd'') => (.ok v, rd'')
     | (.error e, rd'') => (.error (.InvalidDataRead e), rd''))
  | (.ok .Bin32, rd') =>
    (match read_data_u32 rd' with
     | (.ok v, rd'') => (.ok v, rd'')
     | (.error e, rd'') => (.error (.InvalidDataRead e), rd''))
  | (.ok marker, rd') => (.error (.TypeMismatch marker), rd')
  | (.error e, rd') => (.error (.InvalidMarkerRead e.e), rd')

end Decoders

/-- An integral target type `T` of `read_int` (`T : FromPrimitive` for a
primitive integer type), given by its representable range. -/
structure IntType where
  lo : Int
  hi : Int
  deriving DecidableEq, Repr

/-- The checked, saturation-free conversion of `num_traits::FromPrimitive`:
`T::from_u8` / `from_i8` / … / `from_u64` all succeed exactly when the value
fits `T`'s range, returning it unchanged. -/
def IntType.fromInt (t : IntType) (v : Int) : Option Int :=
  if t.lo ≤ v ∧ v ≤ t.hi then some v else none

/-- The `u8` target. -/
def tyU8 : IntType := ⟨0, 2 ^ 8 - 1⟩
/-- The `u16` target. -/
def tyU16 : IntType := ⟨0, 2 ^ 16 - 1⟩
/-- The `u32` target. -/
def tyU32 : IntType := ⟨0, 2 ^ 32 - 1⟩
/-- The `u64` target. -/
def tyU64 : IntType := ⟨0, 2 ^ 64 - 1⟩
/-- The `i8` target. -/
def tyI8 : IntType := ⟨-(2 ^ 7), 2 ^ 7 - 1⟩
/-- The `i16` target. -/
def tyI16 : IntType := ⟨-(2 ^ 15), 2 ^ 15 - 1⟩
/-- The `i32` target. -/
def tyI32 : IntType := ⟨-(2 ^ 31), 2 ^ 31 - 1⟩
/-- The `i64` target. -/
def tyI64 : IntType := ⟨-(2 ^ 63), 2 ^ 63 - 1⟩

section ReadInt

variable {ρ ε : Type} [RmpRead ρ ε]

open RmpRead

/-- Lift a raw data read into `read_int`'s checked conversion step: an I/O
failure becomes `InvalidDataRead`, a value goes through `T`'s checked
conversion (still undecided between `some` and `none`). -/
def intDataStep (t : IntType) : Except ε Int × ρ → Except (NumValueReadError ε) (Option Int) × ρ
  | (.ok v, rd') => (.ok (t.fromInt v), rd')
  | (.error e, rd') => (.error (.InvalidDataRead e), rd')

/-- The `let val = match read_marker(rd)? { ... }` dispatch of `read_int`:
produces the `Option<T>` of the checked conversion, or an early error. -/
def read_int_val (t : IntType) (rd : ρ) : Except (NumValueReadError ε) (Option Int) × ρ :=
  match read_marker rd with
  | (.ok (.FixPos v), rd') => (.ok (t.fromInt v), rd')
  | (.ok (.FixNeg v), rd') => (.ok (t.fromInt v), rd')
  | (.ok .U8, rd') => intDataStep t ((read_data_u8 rd').map (·.map (Int.ofNat)) id)
  | (.ok .U16, rd') => intDataStep t ((read_data_u16 rd').map (·.map (Int.ofNat)) id)
  | (.ok .U32, rd') => intDataStep t ((read_data_u32 rd').map (·.map (Int.ofNat)) id)
  | (.ok .U64, rd') => intDataStep t ((read_data_u64 rd').map (·.map (Int.ofNat)) id)
  | (.ok .I8, rd') => intDataStep t (read_data_i8 rd')
  | (.ok .I16, rd') => intDataStep t (read_data_i16 rd')
  | (.ok .I32, rd') => intDataStep t (read_data_i32 rd')
  | (.ok .I64, rd') => intDataStep t (read_data_i64 rd')
  | (.ok marker, rd') => (.error (.TypeMismatch marker), rd')
  | (.error e, rd') => (.error (.InvalidMarkerRead e.e), rd')

/-- `read_int`: generic integer decode with checked narrowing — the dispatch
above followed by `val.ok_or(NumValueReadError::OutOfRange)`. -/
def read_int (t : IntType) (rd : ρ) : Except (NumValueReadError ε) Int × ρ :=
  match read_int_val t rd with
  | (.ok (some v), rd') => (.ok v, rd')
  | (.ok none, rd') => (.error .OutOfRange, rd')
  | (.error e, rd') => (.error e, rd')

end ReadInt

/-- The result `read_int` produces once an integer value `v` has been decoded:
`T`'s checked conversion followed by `val.ok_or(OutOfRange)`. -/
def fitInto (ε : Type) (t : IntType) (v : Int) : Except (NumValueReadError ε) Int :=
  match t.fromInt v with
  | some w => .ok w
  | none => .error .OutOfRange

/-- The big-endian 4-byte encoding of a 32-bit value, most significant byte
first. -/
def bytesOfU32 (v : Nat) : List Nat :=
  [v / 2 ^ 24 % 256, v / 2 ^ 16 % 256, v / 2 ^ 8 % 256, v % 256]

/-- The marker variants of the map-length family accepted by
`marker_to_len`. -/
def Marker.isMapLen : Marker → Bool
  | .FixMap _ => true
  | .Map16 => true
  | .Map32 => true
  | _ => false

/-- The marker variants of the array-length family accepted by
`read_array_len`. -/
def Marker.isArrayLen : Marker → Bool
  | .FixArray _ => true
  | .Array16 => true
  | .Array32 => true
  | _ => false

/-- The marker variants of the binary-length family accepted by
`read_bin_len`. -/
def Marker.isBinLen : Marker → Bool
  | .Bin8 => true
  | .Bin16 => true
  | .Bin32 => true
  | _ => false

/-- Stated from the spec for the refinement claim: `read_map_len` described as
the literal composition of `read_marker` with `marker_to_len` on the marker
obtained (a marker-read failure is wrapped as `InvalidMarkerRead`). -/
def read_map_len_spec {ρ ε : Type} [RmpRead ρ ε] (rd : ρ) :
    Except (ValueReadError ε) Nat × ρ :=
  match read_marker rd with
  | (.ok marker, rd') => marker_to_len rd' marker
  | (.error e, rd') => (.error (.InvalidMarkerRead e.e), rd')

/-- Whether a value-read error is caused by the transient interruption
condition of the streaming transport. -/
def vErrIntr : ValueReadError ErrorKind → Bool
  | .InvalidMarkerRead .Interrupted => true
  | .InvalidDataRead .Interrupted => true
  | _ => false

/-- Whether a numeric-read error is caused by the transient interruption
condition of the streaming transport. -/
def nErrIntr : NumValueReadError ErrorKind → Bool
  | .InvalidMarkerRead .Interrupted => true
  | .InvalidDataRead .Interrupted => true
  | _ => false

/-! ## Computation lemmas for the slice source -/

theorem bytes_read_exact_of_le (data : List Nat) (pos n : Nat) (h : n ≤ data.length) :
    RmpRead.read_exact_buf (⟨data, pos⟩ : Bytes) n =
      (.ok (data.take n), ⟨data.drop n, pos + n⟩) := by
  simp [RmpRead.read_exact_buf, Bytes.read_exact_buf, h]

theorem bytes_read_exact_of_gt (data : List Nat) (pos n : Nat) (h : data.length < n) :
    RmpRead.read_exact_buf (⟨data, pos⟩ : Bytes) n =
      (.error (.InsufficientBytes n data.length pos), ⟨data, pos⟩) := by
  simp [RmpRead.read_exact_buf, Bytes.read_exact_buf, Nat.not_le.mpr h]

theorem read_u8_bytes_cons (b : Nat) (rest : List Nat) (pos : Nat) :
    RmpRead.read_u8 (⟨b :: rest, pos⟩ : Bytes) = (.ok b, ⟨rest, pos + 1⟩) := by
  unfold RmpRead.read_u8
  rw [bytes_read_exact_of_le (b :: rest) pos 1 (by simp)]
  simp

theorem read_u8_bytes_nil (pos : Nat) :
    RmpRead.read_u8 (⟨[], pos⟩ : Bytes) =
      (.error (.InsufficientBytes 1 0 pos), ⟨[], pos⟩) := by
  unfold RmpRead.read_u8
  rw [bytes_read_exact_of_gt [] pos 1 (by simp)]
  simp

theorem read_marker_bytes_cons (b : Nat) (rest : List Nat) (pos : Nat) :
    read_marker (⟨b :: rest, pos⟩ : Bytes) = (.ok (Marker.fromU8 b), ⟨rest, pos + 1⟩) := by
  simp [read_marker, read_u8_bytes_cons]

theorem read_marker_bytes_nil (pos : Nat) :
    read_marker (⟨[], pos⟩ : Bytes) =
      (.error ⟨.InsufficientBytes 1 0 pos⟩, ⟨[], pos⟩) := by
  simp [read_marker, read_u8_bytes_nil]

theorem read_data_u8_bytes_cons (b : Nat) (rest : List Nat) (pos : Nat) :
    RmpRead.read_data_u8 (⟨b :: rest, pos⟩ : Bytes) = (.ok b, ⟨rest, pos + 1⟩) := by
  simp [RmpRead.read_data_u8, read_u8_bytes_cons]

theorem read_data_u16_bytes_cons (b1 b2 : Nat) (rest : List Nat) (pos : Nat) :
    RmpRead.read_data_u16 (⟨b1 :: b2 :: rest, pos⟩ : Bytes) =
      (.ok (b1 * 256 + b2), ⟨rest, pos + 2⟩) := by
  unfold RmpRead.read_data_u16 RmpRead.read_beN
  rw [bytes_read_exact_of_le (b1 :: b2 :: rest) pos 2 (by simp)]
  simp [beVal]

theorem read_data_u32_bytes_cons (b1 b2 b3 b4 : Nat) (rest : List Nat) (pos : Nat) :
    RmpRead.read_data_u32 (⟨b1 :: b2 :: b3 :: b4 :: rest, pos⟩ : Bytes) =
      (.ok (((b1 * 256 + b2) * 256 + b3) * 256 + b4), ⟨rest, pos + 4⟩) := by
  unfold RmpRead.read_data_u32 RmpRead.read_beN
  rw [bytes_read_exact_of_le (b1 :: b2 :: b3 :: b4 :: rest) pos 4 (by simp)]
  simp [beVal]

theorem read_data_u64_bytes_cons (b1 b2 b3 b4 b5 b6 b7 b8 : Nat) (rest : List Nat) (pos : Nat) :
    RmpRead.read_data_u64 (⟨b1 :: b2 :: b3 :: b4 :: b5 :: b6 :: b7 :: b8 :: rest, pos⟩ : Bytes) =
      (.ok (((((((b1 * 256 + b2) * 256 + b3) * 256 + b4) * 256 + b5) * 256 + b6) * 256 + b7)
        * 256 + b8), ⟨rest, pos + 8⟩) := by
  unfold RmpRead.read_data_u64 RmpRead.read_beN
  rw [bytes_read_exact_of_le (b1 :: b2 :: b3 :: b4 :: b5 :: b6 :: b7 :: b8 :: rest) pos 8
    (by simp)]
  simp [beVal]

theorem read_data_i8_bytes_cons (b : Nat) (rest : List Nat) (pos : Nat) :
    RmpRead.read_data_i8 (⟨b :: rest, pos⟩ : Bytes) =
      (.ok (toSigned 1 b), ⟨rest, pos + 1⟩) := by
  simp [RmpRead.read_data_i8, read_data_u8_bytes_cons]

theorem read_data_i16_bytes_cons (b1 b2 : Nat) (rest : List Nat) (pos : Nat) :
    RmpRead.read_data_i16 (⟨b1 :: b2 :: rest, pos⟩ : Bytes) =
      (.ok (toSigned 2 (b1 * 256 + b2)), ⟨rest, pos + 2⟩) := by
  unfold RmpRead.read_data_i16 RmpRead.read_beN
  rw [bytes_read_exact_of_le (b1 :: b2 :: rest) pos 2 (by simp)]
  simp [beVal]

theorem read_data_i32_bytes_cons (b1 b2 b3 b4 : Nat) (rest : List Nat) (pos : Nat) :
    RmpRead.read_data_i32 (⟨b1 :: b2 :: b3 :: b4 :: rest, pos⟩ : Bytes) =
      (.ok (toSigned 4 (((b1 * 256 + b2) * 256 + b3) * 256 + b4)), ⟨rest, pos + 4⟩) := by
  unfold RmpRead.read_data_i32 RmpRead.read_beN
  rw [bytes_read_exact_of_le (b1 :: b2 :: b3 :: b4 :: rest) pos 4 (by simp)]
  simp [beVal]

theorem read_data_i64_bytes_cons (b1 b2 b3 b4 b5 b6 b7 b8 : Nat) (rest : List Nat) (pos : Nat) :
    RmpRead.read_data_i64 (⟨b1 :: b2 :: b3 :: b4 :: b5 :: b6 :: b7 :: b8 :: rest, pos⟩ : Bytes) =
      (.ok (toSigned 8 (((((((b1 * 256 + b2) * 256 + b3) * 256 + b4) * 256 + b5) * 256 + b6)
        * 256 + b7) * 256 + b8)), ⟨rest, pos + 8⟩) := by
  unfold RmpRead.read_data_i64 RmpRead.read_beN
  rw [bytes_read_exact_of_le (b1 :: b2 :: b3 :: b4 :: b5 :: b6 :: b7 :: b8 :: rest) pos 8
    (by simp)]
  simp [beVal]

/-! ## Marker classification facts -/

set_option maxRecDepth 40000

theorem fromU8_null_iff : ∀ b < 256, (Marker.fromU8 b = .Null ↔ b = 0xc0) := by decide

theorem fromU8_true_iff : ∀ b < 256, (Marker.fromU8 b = .True ↔ b = 0xc3) := by decide

theorem fromU8_false_iff : ∀ b < 256, (Marker.fromU8 b = .False ↔ b = 0xc2) := by decide

theorem fromU8_fixpos : ∀ b < 256, b ≤ 0x7f → Marker.fromU8 b = .FixPos b := by decide

theorem fromU8_fixneg : ∀ b < 256, 0xe0 ≤ b → Marker.fromU8 b = .FixNeg ((b : Int) - 256) := by
  decide

theorem fromU8_fixarray : ∀ b < 256, 0x90 ≤ b → b ≤ 0x9f →
    Marker.fromU8 b = .FixArray (b - 0x90) := by decide

theorem fromU8_fixmap : ∀ b < 256, 0x80 ≤ b → b ≤ 0x8f →
    Marker.fromU8 b = .FixMap (b - 0x80) := by decide

/-- On a non-empty slice, `read_nil` always consumes exactly the marker byte
and succeeds exactly on the `Null` classification. -/
theorem read_nil_bytes_cons (b : Nat) (rest : List Nat) (pos : Nat) :
    read_nil (⟨b :: rest, pos⟩ : Bytes) =
      (if Marker.fromU8 b = .Null then .ok () else .error (.TypeMismatch (Marker.fromU8 b)),
        ⟨rest, pos + 1⟩) := by
  simp only [read_nil, read_marker_bytes_cons]
  cases h : Marker.fromU8 b <;> simp

/-- On a non-empty slice, `read_bool` always consumes exactly the marker byte
and succeeds exactly on the `True`/`False` classifications. -/
theorem read_bool_bytes_cons (b : Nat) (rest : List Nat) (pos : Nat) :
    read_bool (⟨b :: rest, pos⟩ : Bytes) =
      (if Marker.fromU8 b = .True then .ok true
       else if Marker.fromU8 b = .False then .ok false
       else .error (.TypeMismatch (Marker.fromU8 b)), ⟨rest, pos + 1⟩) := by
  simp only [read_bool, read_marker_bytes_cons]
  cases h : Marker.fromU8 b <;> simp

theorem fromU8_arrayLen_iff : ∀ b < 256,
    ((Marker.fromU8 b).isArrayLen = true ↔ (0x90 ≤ b ∧ b ≤ 0x9f) ∨ b = 0xdc ∨ b = 0xdd) := by
  decide

theorem fromU8_mapLen_iff : ∀ b < 256,
    ((Marker.fromU8 b).isMapLen = true ↔ (0x80 ≤ b ∧ b ≤ 0x8f) ∨ b = 0xde ∨ b = 0xdf) := by
  decide

theorem fromU8_binLen_iff : ∀ b < 256,
    ((Marker.fromU8 b).isBinLen = true ↔ b = 0xc4 ∨ b = 0xc5 ∨ b = 0xc6) := by
  decide

theorem read_array_len_mismatch (b : Nat) (rest : List Nat) (pos : Nat)
    (h : (Marker.fromU8 b).isArrayLen = false) :
    read_array_len (⟨b :: rest, pos⟩ : Bytes) =
      (.error (.TypeMismatch (Marker.fromU8 b)), ⟨rest, pos + 1⟩) := by
  simp only [read_array_len, read_marker_bytes_cons]
  cases hm : Marker.fromU8 b <;> simp_all [Marker.isArrayLen]

theorem read_bin_len_mismatch (b : Nat) (rest : List Nat) (pos : Nat)
    (h : (Marker.fromU8 b).isBinLen = false) :
    read_bin_len (⟨b :: rest, pos⟩ : Bytes) =
      (.error (.TypeMismatch (Marker.fromU8 b)), ⟨rest, pos + 1⟩) := by
  simp only [read_bin_len, read_marker_bytes_cons]
  cases hm : Marker.fromU8 b <;> simp_all [Marker.isBinLen]

theorem marker_to_len_mismatch {ρ ε : Type} [RmpRead ρ ε] (rd : ρ) (m : Marker)
    (h : m.isMapLen = false) :
    marker_to_len rd m = (.error (.TypeMismatch m), rd) := by
  cases m <;> simp_all [Marker.isMapLen, marker_to_len]

theorem read_map_len_mismatch (b : Nat) (rest : List Nat) (pos : Nat)
    (h : (Marker.fromU8 b).isMapLen = false) :
    read_map_len (⟨b :: rest, pos⟩ : Bytes) =
      (.error (.TypeMismatch (Marker.fromU8 b)), ⟨rest, pos + 1⟩) := by
  simp only [read_map_len, read_marker_bytes_cons]
  exact marker_to_len_mismatch _ _ h

theorem read_array_len_fixarray (n : Nat) (hn : n ≤ 15) (rest : List Nat) (pos : Nat) :
    read_array_len (⟨(0x90 + n) :: rest, pos⟩ : Bytes) = (.ok n, ⟨rest, pos + 1⟩) := by
  have h := fromU8_fixarray (0x90 + n) (by omega) (by omega) (by omega)
  simp only [read_array_len, read_marker_bytes_cons, h]
  norm_num

theorem read_array_len_a16 (b1 b2 : Nat) (rest : List Nat) (pos : Nat) :
    read_array_len (⟨0xdc :: b1 :: b2 :: rest, pos⟩ : Bytes) =
      (.ok (b1 * 256 + b2), ⟨rest, pos + 3⟩) := by
  simp only [read_array_len, read_marker_bytes_cons,
    (by decide : Marker.fromU8 0xdc = Marker.Array16), read_data_u16_bytes_cons]

theorem read_array_len_a32 (b1 b2 b3 b4 : Nat) (rest : List Nat) (pos : Nat) :
    read_array_len (⟨0xdd :: b1 :: b2 :: b3 :: b4 :: rest, pos⟩ : Bytes) =
      (.ok (((b1 * 256 + b2) * 256 + b3) * 256 + b4), ⟨rest, pos + 5⟩) := by
  simp only [read_array_len, read_marker_bytes_cons,
    (by decide : Marker.fromU8 0xdd = Marker.Array32), read_data_u32_bytes_cons]

theorem read_map_len_fixmap (n : Nat) (hn : n ≤ 15) (rest : List Nat) (pos : Nat) :
    read_map_len (⟨(0x80 + n) :: rest, pos⟩ : Bytes) = (.ok n, ⟨rest, pos + 1⟩) := by
  have h := fromU8_fixmap (0x80 + n) (by omega) (by omega) (by omega)
  simp only [read_map_len, read_marker_bytes_cons, h, marker_to_len]
  norm_num

theorem read_map_len_m16 (b1 b2 : Nat) (rest : List Nat) (pos : Nat) :
    read_map_len (⟨0xde :: b1 :: b2 :: rest, pos⟩ : Bytes) =
      (.ok (b1 * 256 + b2), ⟨rest, pos + 3⟩) := by
  simp only [read_map_len, read_marker_bytes_cons,
    (by decide : Marker.fromU8 0xde = Marker.Map16), marker_to_len, read_data_u16_bytes_cons]

theorem read_map_len_m32 (b1 b2 b3 b4 : Nat) (rest : List Nat) (pos : Nat) :
    read_map_len (⟨0xdf :: b1 :: b2 :: b3 :: b4 :: rest, pos⟩ : Bytes) =
      (.ok (((b1 * 256 + b2) * 256 + b3) * 256 + b4), ⟨rest, pos + 5⟩) := by
  simp only [read_map_len, read_marker_bytes_cons,
    (by decide : Marker.fromU8 0xdf = Marker.Map32), marker_to_len, read_data_u32_bytes_cons]

theorem read_bin_len_b8 (v : Nat) (rest : List Nat) (pos : Nat) :
    read_bin_len (⟨0xc4 :: v :: rest, pos⟩ : Bytes) = (.ok v, ⟨rest, pos + 2⟩) := by
  simp only [read_bin_len, read_marker_bytes_cons,
    (by decide : Marker.fromU8 0xc4 = Marker.Bin8), read_data_u8_bytes_cons]

theorem read_bin_len_b16 (b1 b2 : Nat) (rest : List Nat) (pos : Nat) :
    read_bin_len (⟨0xc5 :: b1 :: b2 :: rest, pos⟩ : Bytes) =
      (.ok (b1 * 256 + b2), ⟨rest, pos + 3⟩) := by
  simp only [read_bin_len, read_marker_bytes_cons,
    (by decide : Marker.fromU8 0xc5 = Marker.Bin16), read_data_u16_bytes_cons]

theorem read_bin_len_b32 (b1 b2 b3 b4 : Nat) (rest : List Nat) (pos : Nat) :
    read_bin_len (⟨0xc6 :: b1 :: b2 :: b3 :: b4 :: rest, pos⟩ : Bytes) =
      (.ok (((b1 * 256 + b2) * 256 + b3) * 256 + b4), ⟨rest, pos + 5⟩) := by
  simp only [read_bin_len, read_marker_bytes_cons,
    (by decide : Marker.fromU8 0xc6 = Marker.Bin32), read_data_u32_bytes_cons]

/-! ## Claim theorems -/

/-- C8: `read_nil` succeeds (returning unit) exactly when the single marker
byte read equals the fixed nil byte 0xC0, and `read_bool` returns
true / false exactly when the marker byte is 0xC3 / 0xC2; for any other
marker, each fails with a type-mismatch error that carries the marker
actually found. -/
theorem claim_C8 (b : Nat) (hb : b < 256) (rest : List Nat) (pos : Nat) :
    (read_nil (⟨b :: rest, pos⟩ : Bytes) = (.ok (), ⟨rest, pos + 1⟩) ↔ b = 0xc0) ∧
    (read_bool (⟨b :: rest, pos⟩ : Bytes) = (.ok true, ⟨rest, pos + 1⟩) ↔ b = 0xc3) ∧
    (read_bool (⟨b :: rest, pos⟩ : Bytes) = (.ok false, ⟨rest, pos + 1⟩) ↔ b = 0xc2) ∧
    (b ≠ 0xc0 → read_nil (⟨b :: rest, pos⟩ : Bytes) =
      (.error (.TypeMismatch (Marker.fromU8 b)), ⟨rest, pos + 1⟩)) ∧
    (b ≠ 0xc2 → b ≠ 0xc3 → read_bool (⟨b :: rest, pos⟩ : Bytes) =
      (.error (.TypeMismatch (Marker.fromU8 b)), ⟨rest, pos + 1⟩)) := by
  have hnull := fromU8_null_iff b hb
  have htrue := fromU8_true_iff b hb
  have hfalse := fromU8_false_iff b hb
  simp only [read_nil_bytes_cons, read_bool_bytes_cons]
  split_ifs with h1 h2 h3 <;> simp_all

theorem claim_C8_witness :
    (read_nil (⟨[0xc0], 7⟩ : Bytes) = (.ok (), ⟨[], 8⟩) ↔ (0xc0 : Nat) = 0xc0) ∧
    read_nil (⟨[0xca], 0⟩ : Bytes) =
      (.error (.TypeMismatch (Marker.fromU8 0xca)), ⟨[], 1⟩) :=
  ⟨(claim_C8 0xc0 (by decide) [] 7).1,
   (claim_C8 0xca (by decide) [] 0).2.2.2.1 (by decide)⟩

/-- C10: `read_map_len` is observationally equal, over every byte source, to
the composition of `read_marker` with `marker_to_len` on the marker obtained;
and `marker_to_len` on any non-map marker fails with a type-mismatch error
carrying that marker while returning the source unchanged — no further bytes
are read. -/
theorem claim_C10 :
    (∀ (ρ ε : Type) (_inst : RmpRead ρ ε) (s : ρ), read_map_len s = read_map_len_spec s) ∧
    (∀ (ρ ε : Type) (_inst : RmpRead ρ ε) (rd : ρ) (m : Marker), m.isMapLen = false →
      marker_to_len rd m = (.error (.TypeMismatch m), rd)) := by
  constructor
  · intro ρ ε _inst s
    rfl
  · intro ρ ε _inst rd m h
    exact marker_to_len_mismatch rd m h

theorem claim_C10_witness :
    read_map_len (⟨[0xde, 0, 2], 0⟩ : Bytes) = read_map_len_spec (⟨[0xde, 0, 2], 0⟩ : Bytes) ∧
    marker_to_len (⟨[9], 4⟩ : Bytes) Marker.U8 =
      (.error (.TypeMismatch Marker.U8), ⟨[9], 4⟩) :=
  ⟨claim_C10.1 Bytes BytesReadError inferInstance _,
   claim_C10.2 Bytes BytesReadError inferInstance ⟨[9], 4⟩ Marker.U8 (by decide)⟩

/-- C3, refuted as stated: `read_bin_len` has no small-inline (count embedded
in the marker byte) size class.  The accepted marker 0xC4 (`Bin8`) reads a
one-byte length payload: on `[0xC4, 0x2A]` it succeeds with 42 having consumed
two bytes (a small-inline form would consume only the marker byte), and on
`[0xC4]` alone it fails wanting exactly one more byte (a 16-bit or 32-bit
length-prefixed form would want two or four). -/
theorem claim_C3_counterexample :
    read_bin_len (⟨[0xc4, 0x2a], 0⟩ : Bytes) = (.ok 42, ⟨[], 2⟩) ∧
    read_bin_len (⟨[0xc4], 0⟩ : Bytes) =
      (.error (.InvalidDataRead (.InsufficientBytes 1 0 1)), ⟨[], 1⟩) :=
  ⟨rfl, rfl⟩

/-- C3, amended: binary length decoding accepts exactly three marker size
classes — 8-bit (`Bin8`, marker 0xC4), 16-bit (`Bin16`, 0xC5) and 32-bit
(`Bin32`, 0xC6) big-endian length-prefixed forms — returning the length as a
32-bit unsigned integer, and fails with a type-mismatch error on every other
marker. -/
theorem claim_C3_amended :
    (∀ (v : Nat) (rest : List Nat) (pos : Nat),
      read_bin_len (⟨0xc4 :: v :: rest, pos⟩ : Bytes) = (.ok v, ⟨rest, pos + 2⟩)) ∧
    (∀ (b1 b2 : Nat) (rest : List Nat) (pos : Nat),
      read_bin_len (⟨0xc5 :: b1 :: b2 :: rest, pos⟩ : Bytes) =
        (.ok (b1 * 256 + b2), ⟨rest, pos + 3⟩)) ∧
    (∀ (b1 b2 b3 b4 : Nat) (rest : List Nat) (pos : Nat),
      read_bin_len (⟨0xc6 :: b1 :: b2 :: b3 :: b4 :: rest, pos⟩ : Bytes) =
        (.ok (((b1 * 256 + b2) * 256 + b3) * 256 + b4), ⟨rest, pos + 5⟩)) ∧
    (∀ b < 256, (Marker.fromU8 b).isBinLen = true ↔ b = 0xc4 ∨ b = 0xc5 ∨ b = 0xc6) ∧
    (∀ b < 256, (Marker.fromU8 b).isBinLen = false → ∀ (rest : List Nat) (pos : Nat),
      read_bin_len (⟨b :: rest, pos⟩ : Bytes) =
        (.error (.TypeMismatch (Marker.fromU8 b)), ⟨rest, pos + 1⟩)) ∧
    (∀ (b : Nat) (rest : List Nat) (pos v : Nat) (s' : Bytes),
      (∀ x ∈ rest, x < 256) →
      read_bin_len (⟨b :: rest, pos⟩ : Bytes) = (.ok v, s') → v < 2 ^ 32) := by
  refine ⟨read_bin_len_b8, read_bin_len_b16, read_bin_len_b32, fromU8_binLen_iff,
    fun b hb h rest pos => read_bin_len_mismatch b rest pos h, ?_⟩
  intro b rest pos v s' hrest hok
  by_cases hfam : (Marker.fromU8 b).isBinLen = true
  · rcases hb : Marker.fromU8 b with _ | _ | _ | _ | _ | _ | m8 | m16 | m32 <;>
      rw [hb] at hfam <;> simp [Marker.isBinLen] at hfam
    all_goals simp only [read_bin_len, read_marker_bytes_cons, hb] at hok
    · -- Bin8: one payload byte
      match rest, hrest with
      | [], _ => simp [RmpRead.read_data_u8, read_u8_bytes_nil] at hok
      | x :: rest', hr =>
        rw [read_data_u8_bytes_cons] at hok
        have hx : x < 256 := hr x (by simp)
        simp at hok
        omega
    · -- Bin16: two payload bytes
      match rest, hrest with
      | [], _ => simp [RmpRead.read_data_u16, RmpRead.read_beN,
          bytes_read_exact_of_gt [] (pos + 1) 2 (by simp)] at hok
      | [x], hr => simp [RmpRead.read_data_u16, RmpRead.read_beN,
          bytes_read_exact_of_gt [x] (pos + 1) 2 (by simp)] at hok
      | x :: y :: rest', hr =>
        rw [read_data_u16_bytes_cons] at hok
        have hx : x < 256 := hr x (by simp)
        have hy : y < 256 := hr y (by simp)
        simp at hok
        omega
    · -- Bin32: four payload bytes
      match rest, hrest with
      | [], _ => simp [RmpRead.read_data_u32, RmpRead.read_beN,
          bytes_read_exact_of_gt [] (pos + 1) 4 (by simp)] at hok
      | [x], hr => simp [RmpRead.read_data_u32, RmpRead.read_beN,
          bytes_read_exact_of_gt [x] (pos + 1) 4 (by simp)] at hok
      | [x, y], hr => simp [RmpRead.read_data_u32, RmpRead.read_beN,
          bytes_read_exact_of_gt [x, y] (pos + 1) 4 (by simp)] at hok
      | [x, y, z], hr => simp [RmpRead.read_data_u32, RmpRead.read_beN,
          bytes_read_exact_of_gt [x, y, z] (pos + 1) 4 (by simp)] at hok
      | x :: y :: z :: w :: rest', hr =>
        rw [read_data_u32_bytes_cons] at hok
        have hx : x < 256 := hr x (by simp)
        have hy : y < 256 := hr y (by simp)
        have hz : z < 256 := hr z (by simp)
        have hw : w < 256 := hr w (by simp)
        simp at hok
        omega
  · rw [read_bin_len_mismatch b rest pos (by simpa using hfam)] at hok
    simp at hok

theorem claim_C3_amended_witness :
    read_bin_len (⟨[0xc4, 0x07], 0⟩ : Bytes) = (.ok 7, ⟨[], 2⟩) ∧
    read_bin_len (⟨[0xc5, 0x01, 0x00], 0⟩ : Bytes) = (.ok 256, ⟨[], 3⟩) ∧
    read_bin_len (⟨[0xc6, 1, 0, 0, 0], 0⟩ : Bytes) = (.ok 16777216, ⟨[], 5⟩) ∧
    read_bin_len (⟨[0x90], 0⟩ : Bytes) =
      (.error (.TypeMismatch (Marker.fromU8 0x90)), ⟨[], 1⟩) ∧
    16777216 < 2 ^ 32 :=
  ⟨claim_C3_amended.1 0x07 [] 0,
   by simpa using claim_C3_amended.2.1 0x01 0x00 [] 0,
   by simpa using claim_C3_amended.2.2.1 1 0 0 0 [] 0,
   claim_C3_amended.2.2.2.2.1 0x90 (by decide) (by decide) [] 0,
   claim_C3_amended.2.2.2.2.2 0xc6 [1, 0, 0, 0] 0 16777216 ⟨[], 5⟩ (by decide)
     (by simpa using claim_C3_amended.2.2.1 1 0 0 0 [] 0)⟩

/-- C5: `read_array_len` and `read_map_len` each accept exactly the
small-inline marker (returning its embedded count), the 16-bit
length-prefixed marker (big-endian payload widened losslessly) and the 32-bit
length-prefixed marker (big-endian payload unchanged), fail with a
type-mismatch error carrying the found marker on every other marker, and
perform no upper-bound validation: every representable 32-bit length value is
returned as-is. -/
theorem claim_C5 :
    (∀ n ≤ 15, ∀ (rest : List Nat) (pos : Nat),
      read_array_len (⟨(0x90 + n) :: rest, pos⟩ : Bytes) = (.ok n, ⟨rest, pos + 1⟩)) ∧
    (∀ (b1 b2 : Nat) (rest : List Nat) (pos : Nat),
      read_array_len (⟨0xdc :: b1 :: b2 :: rest, pos⟩ : Bytes) =
        (.ok (b1 * 256 + b2), ⟨rest, pos + 3⟩)) ∧
    (∀ (b1 b2 b3 b4 : Nat) (rest : List Nat) (pos : Nat),
      read_array_len (⟨0xdd :: b1 :: b2 :: b3 :: b4 :: rest, pos⟩ : Bytes) =
        (.ok (((b1 * 256 + b2) * 256 + b3) * 256 + b4), ⟨rest, pos + 5⟩)) ∧
    (∀ b < 256, (Marker.fromU8 b).isArrayLen = true ↔
      (0x90 ≤ b ∧ b ≤ 0x9f) ∨ b = 0xdc ∨ b = 0xdd) ∧
    (∀ b < 256, (Marker.fromU8 b).isArrayLen = false → ∀ (rest : List Nat) (pos : Nat),
      read_array_len (⟨b :: rest, pos⟩ : Bytes) =
        (.error (.TypeMismatch (Marker.fromU8 b)), ⟨rest, pos + 1⟩)) ∧
    (∀ n ≤ 15, ∀ (rest : List Nat) (pos : Nat),
      read_map_len (⟨(0x80 + n) :: rest, pos⟩ : Bytes) = (.ok n, ⟨rest, pos + 1⟩)) ∧
    (∀ (b1 b2 : Nat) (rest : List Nat) (pos : Nat),
      read_map_len (⟨0xde :: b1 :: b2 :: rest, pos⟩ : Bytes) =
        (.ok (b1 * 256 + b2), ⟨rest, pos + 3⟩)) ∧
    (∀ (b1 b2 b3 b4 : Nat) (rest : List Nat) (pos : Nat),
      read_map_len (⟨0xdf :: b1 :: b2 :: b3 :: b4 :: rest, pos⟩ : Bytes) =
        (.ok (((b1 * 256 + b2) * 256 + b3) * 256 + b4), ⟨rest, pos + 5⟩)) ∧
    (∀ b < 256, (Marker.fromU8 b).isMapLen = true ↔
      (0x80 ≤ b ∧ b ≤ 0x8f) ∨ b = 0xde ∨ b = 0xdf) ∧
    (∀ b < 256, (Marker.fromU8 b).isMapLen = false → ∀ (rest : List Nat) (pos : Nat),
      read_map_len (⟨b :: rest, pos⟩ : Bytes) =
        (.error (.TypeMismatch (Marker.fromU8 b)), ⟨rest, pos + 1⟩)) ∧
    (∀ v < 2 ^ 32, ∀ pos : Nat,
      read_array_len (⟨0xdd :: bytesOfU32 v, pos⟩ : Bytes) = (.ok v, ⟨[], pos + 5⟩) ∧
      read_map_len (⟨0xdf :: bytesOfU32 v, pos⟩ : Bytes) = (.ok v, ⟨[], pos + 5⟩)) := by
  refine ⟨read_array_len_fixarray, read_array_len_a16, read_array_len_a32,
    fromU8_arrayLen_iff, fun b hb h rest pos => read_array_len_mismatch b rest pos h,
    read_map_len_fixmap, read_map_len_m16, read_map_len_m32,
    fromU8_mapLen_iff, fun b hb h rest pos => read_map_len_mismatch b rest pos h, ?_⟩
  intro v hv pos
  have harr := read_array_len_a32 (v / 2 ^ 24 % 256) (v / 2 ^ 16 % 256) (v / 2 ^ 8 % 256)
    (v % 256) [] pos
  have hmap := read_map_len_m32 (v / 2 ^ 24 % 256) (v / 2 ^ 16 % 256) (v / 2 ^ 8 % 256)
    (v % 256) [] pos
  have hval : ((v / 2 ^ 24 % 256 * 256 + v / 2 ^ 16 % 256) * 256 + v / 2 ^ 8 % 256) * 256
      + v % 256 = v := by omega
  rw [hval] at harr hmap
  exact ⟨harr, hmap⟩

theorem claim_C5_witness :
    read_array_len (⟨[0x93, 0xff], 0⟩ : Bytes) = (.ok 3, ⟨[0xff], 1⟩) ∧
    read_map_len (⟨[0xde, 0x01, 0x00], 0⟩ : Bytes) = (.ok 256, ⟨[], 3⟩) ∧
    read_array_len (⟨[0xc0], 0⟩ : Bytes) =
      (.error (.TypeMismatch (Marker.fromU8 0xc0)), ⟨[], 1⟩) ∧
    read_array_len (⟨0xdd :: bytesOfU32 4294967295, 9⟩ : Bytes) =
      (.ok 4294967295, ⟨[], 9 + 5⟩) :=
  ⟨by simpa using claim_C5.1 3 (by decide) [0xff] 0,
   by simpa using claim_C5.2.2.2.2.2.2.1 0x01 0x00 [] 0,
   claim_C5.2.2.2.2.1 0xc0 (by decide) (by decide) [] 0,
   (claim_C5.2.2.2.2.2.2.2.2.2.2 4294967295 (by norm_num) 9).1⟩

theorem mismatch_state_nil (s : Bytes) (m : Marker) (s' : Bytes)
    (h : read_nil s = (.error (.TypeMismatch m), s')) :
    s' = ⟨s.bytes.drop 1, s.currentPosition + 1⟩ := by
  obtain ⟨data, pos⟩ := s
  cases data with
  | nil => simp only [read_nil, read_marker_bytes_nil] at h; simp at h
  | cons b rest => rw [read_nil_bytes_cons] at h; simp_all

theorem mismatch_state_bool (s : Bytes) (m : Marker) (s' : Bytes)
    (h : read_bool s = (.error (.TypeMismatch m), s')) :
    s' = ⟨s.bytes.drop 1, s.currentPosition + 1⟩ := by
  obtain ⟨data, pos⟩ := s
  cases data with
  | nil => simp only [read_bool, read_marker_bytes_nil] at h; simp at h
  | cons b rest => rw [read_bool_bytes_cons] at h; simp_all

theorem mismatch_state_array_len (s : Bytes) (m : Marker) (s' : Bytes)
    (h : read_array_len s = (.error (.TypeMismatch m), s')) :
    s' = ⟨s.bytes.drop 1, s.currentPosition + 1⟩ := by
  obtain ⟨data, pos⟩ := s
  cases data with
  | nil => simp only [read_array_len, read_marker_bytes_nil] at h; simp at h
  | cons b rest =>
    simp only [read_array_len, read_marker_bytes_cons] at h
    split at h <;> first | (split at h <;> simp_all) | simp_all

theorem mismatch_state_map_len (s : Bytes) (m : Marker) (s' : Bytes)
    (h : read_map_len s = (.error (.TypeMismatch m), s')) :
    s' = ⟨s.bytes.drop 1, s.currentPosition + 1⟩ := by
  obtain ⟨data, pos⟩ := s
  cases data with
  | nil => simp only [read_map_len, read_marker_bytes_nil] at h; simp at h
  | cons b rest =>
    simp only [read_map_len, read_marker_bytes_cons, marker_to_len] at h
    split at h <;> first | (split at h <;> simp_all) | simp_all

theorem mismatch_state_bin_len (s : Bytes) (m : Marker) (s' : Bytes)
    (h : read_bin_len s = (.error (.TypeMismatch m), s')) :
    s' = ⟨s.bytes.drop 1, s.currentPosition + 1⟩ := by
  obtain ⟨data, pos⟩ := s
  cases data with
  | nil => simp only [read_bin_len, read_marker_bytes_nil] at h; simp at h
  | cons b rest =>
    simp only [read_bin_len, read_marker_bytes_cons] at h
    split at h <;> first | (split at h <;> simp_all) | simp_all

theorem mismatch_state_int_val (t : IntType) (b : Nat) (rest : List Nat) (pos : Nat)
    (m : Marker) (s' : Bytes)
    (h : read_int_val t (⟨b :: rest, pos⟩ : Bytes) = (.error (.TypeMismatch m), s')) :
    s' = ⟨rest, pos + 1⟩ := by
  simp only [read_int_val, read_marker_bytes_cons, intDataStep] at h
  split at h <;> first | (split at h <;> simp_all) | simp_all

theorem mismatch_state_int (t : IntType) (s : Bytes) (m : Marker) (s' : Bytes)
    (h : read_int t s = (.error (.TypeMismatch m), s')) :
    s' = ⟨s.bytes.drop 1, s.currentPosition + 1⟩ := by
  obtain ⟨data, pos⟩ := s
  cases data with
  | nil =>
    simp only [read_int, read_int_val, read_marker_bytes_nil] at h
    simp at h
  | cons b rest =>
    simp only [read_int] at h
    split at h
    · simp at h
    · simp at h
    · rename_i e rd' heq
      simp only [Prod.mk.injEq, Except.error.injEq] at h
      obtain ⟨he, hs⟩ := h
      subst he
      subst hs
      simpa using mismatch_state_int_val t b rest pos m _ heq

/-- C2: for every decoder in this module (`read_nil`, `read_bool`,
`read_int`, `read_array_len`, `read_map_len`, `read_bin_len`) and every byte
source state, when the decoder fails with a type-mismatch error the source
has advanced by exactly one byte — the marker byte — from where the decode
started; no payload bytes are consumed on that failure path. -/
theorem claim_C2 :
    (∀ (s : Bytes) (m : Marker) (s' : Bytes),
      read_nil s = (.error (.TypeMismatch m), s') →
      s' = ⟨s.bytes.drop 1, s.currentPosition + 1⟩) ∧
    (∀ (s : Bytes) (m : Marker) (s' : Bytes),
      read_bool s = (.error (.TypeMismatch m), s') →
      s' = ⟨s.bytes.drop 1, s.currentPosition + 1⟩) ∧
    (∀ (t : IntType) (s : Bytes) (m : Marker) (s' : Bytes),
      read_int t s = (.error (.TypeMismatch m), s') →
      s' = ⟨s.bytes.drop 1, s.currentPosition + 1⟩) ∧
    (∀ (s : Bytes) (m : Marker) (s' : Bytes),
      read_array_len s = (.error (.TypeMismatch m), s') →
      s' = ⟨s.bytes.drop 1, s.currentPosition + 1⟩) ∧
    (∀ (s : Bytes) (m : Marker) (s' : Bytes),
      read_map_len s = (.error (.TypeMismatch m), s') →
      s' = ⟨s.bytes.drop 1, s.currentPosition + 1⟩) ∧
    (∀ (s : Bytes) (m : Marker) (s' : Bytes),
      read_bin_len s = (.error (.TypeMismatch m), s') →
      s' = ⟨s.bytes.drop 1, s.currentPosition + 1⟩) :=
  ⟨mismatch_state_nil, mismatch_state_bool, mismatch_state_int,
   mismatch_state_array_len, mismatch_state_map_len, mismatch_state_bin_len⟩

theorem claim_C2_witness :
    (⟨[0x2c], 0 + 1⟩ : Bytes) = ⟨([0xca, 0x2c] : List Nat).drop 1, 0 + 1⟩ ∧
    (⟨[0x01], 5 + 1⟩ : Bytes) = ⟨([0xc0, 0x01] : List Nat).drop 1, 5 + 1⟩ :=
  ⟨claim_C2.2.2.1 tyU8 ⟨[0xca, 0x2c], 0⟩ Marker.F32 ⟨[0x2c], 0 + 1⟩ (by rfl),
   claim_C2.2.2.2.2.2 ⟨[0xc0, 0x01], 5⟩ Marker.Null ⟨[0x01], 5 + 1⟩ (by rfl)⟩


theorem read_int_of_val (t : IntType) (s s' : Bytes) (v : Int)
    (h : read_int_val t s = (.ok (t.fromInt v), s')) :
    read_int t s = (fitInto BytesReadError t v, s') := by
  cases hf : t.fromInt v <;> simp [read_int, h, hf, fitInto]

theorem read_int_fixpos (t : IntType) (b : Nat) (hb : b < 256) (h7 : b ≤ 0x7f)
    (rest : List Nat) (pos : Nat) :
    read_int t (⟨b :: rest, pos⟩ : Bytes) =
      (fitInto BytesReadError t b, ⟨rest, pos + 1⟩) := by
  apply read_int_of_val
  simp only [read_int_val, read_marker_bytes_cons, fromU8_fixpos b hb h7]

theorem read_int_fixneg (t : IntType) (b : Nat) (hb : b < 256) (he : 0xe0 ≤ b)
    (rest : List Nat) (pos : Nat) :
    read_int t (⟨b :: rest, pos⟩ : Bytes) =
      (fitInto BytesReadError t ((b : Int) - 256), ⟨rest, pos + 1⟩) := by
  apply read_int_of_val
  simp only [read_int_val, read_marker_bytes_cons, fromU8_fixneg b hb he]

theorem read_int_u8 (t : IntType) (v : Nat) (rest : List Nat) (pos : Nat) :
    read_int t (⟨0xcc :: v :: rest, pos⟩ : Bytes) =
      (fitInto BytesReadError t v, ⟨rest, pos + 2⟩) := by
  apply read_int_of_val
  simp only [read_int_val, read_marker_bytes_cons,
    (by decide : Marker.fromU8 0xcc = Marker.U8), read_data_u8_bytes_cons,
    Prod.map, Except.map, intDataStep, id_eq, Int.ofNat_eq_coe]

theorem read_int_u16 (t : IntType) (b1 b2 : Nat) (rest : List Nat) (pos : Nat) :
    read_int t (⟨0xcd :: b1 :: b2 :: rest, pos⟩ : Bytes) =
      (fitInto BytesReadError t (b1 * 256 + b2), ⟨rest, pos + 3⟩) := by
  apply read_int_of_val
  simp only [read_int_val, read_marker_bytes_cons,
    (by decide : Marker.fromU8 0xcd = Marker.U16), read_data_u16_bytes_cons,
    Prod.map, Except.map, intDataStep, id_eq, Int.ofNat_eq_coe]
  norm_num

theorem read_int_u32 (t : IntType) (b1 b2 b3 b4 : Nat) (rest : List Nat) (pos : Nat) :
    read_int t (⟨0xce :: b1 :: b2 :: b3 :: b4 :: rest, pos⟩ : Bytes) =
      (fitInto BytesReadError t (((b1 * 256 + b2) * 256 + b3) * 256 + b4),
        ⟨rest, pos + 5⟩) := by
  apply read_int_of_val
  simp only [read_int_val, read_marker_bytes_cons,
    (by decide : Marker.fromU8 0xce = Marker.U32), read_data_u32_bytes_cons,
    Prod.map, Except.map, intDataStep, id_eq, Int.ofNat_eq_coe]
  norm_num

theorem read_int_u64 (t : IntType) (b1 b2 b3 b4 b5 b6 b7 b8 : Nat)
    (rest : List Nat) (pos : Nat) :
    read_int t (⟨0xcf :: b1 :: b2 :: b3 :: b4 :: b5 :: b6 :: b7 :: b8 :: rest, pos⟩ : Bytes) =
      (fitInto BytesReadError t
        (((((((b1 * 256 + b2) * 256 + b3) * 256 + b4) * 256 + b5) * 256 + b6) * 256 + b7)
          * 256 + b8), ⟨rest, pos + 9⟩) := by
  apply read_int_of_val
  simp only [read_int_val, read_marker_bytes_cons,
    (by decide : Marker.fromU8 0xcf = Marker.U64), read_data_u64_bytes_cons,
    Prod.map, Except.map, intDataStep, id_eq, Int.ofNat_eq_coe]
  norm_num

theorem read_int_i8 (t : IntType) (v : Nat) (rest : List Nat) (pos : Nat) :
    read_int t (⟨0xd0 :: v :: rest, pos⟩ : Bytes) =
      (fitInto BytesReadError t (toSigned 1 v), ⟨rest, pos + 2⟩) := by
  apply read_int_of_val
  simp only [read_int_val, read_marker_bytes_cons,
    (by decide : Marker.fromU8 0xd0 = Marker.I8), read_data_i8_bytes_cons, intDataStep]

theorem read_int_i16 (t : IntType) (b1 b2 : Nat) (rest : List Nat) (pos : Nat) :
    read_int t (⟨0xd1 :: b1 :: b2 :: rest, pos⟩ : Bytes) =
      (fitInto BytesReadError t (toSigned 2 (b1 * 256 + b2)), ⟨rest, pos + 3⟩) := by
  apply read_int_of_val
  simp only [read_int_val, read_marker_bytes_cons,
    (by decide : Marker.fromU8 0xd1 = Marker.I16), read_data_i16_bytes_cons, intDataStep]

theorem read_int_i32 (t : IntType) (b1 b2 b3 b4 : Nat) (rest : List Nat) (pos : Nat) :
    read_int t (⟨0xd2 :: b1 :: b2 :: b3 :: b4 :: rest, pos⟩ : Bytes) =
      (fitInto BytesReadError t (toSigned 4 (((b1 * 256 + b2) * 256 + b3) * 256 + b4)),
        ⟨rest, pos + 5⟩) := by
  apply read_int_of_val
  simp only [read_int_val, read_marker_bytes_cons,
    (by decide : Marker.fromU8 0xd2 = Marker.I32), read_data_i32_bytes_cons, intDataStep]

theorem read_int_i64 (t : IntType) (b1 b2 b3 b4 b5 b6 b7 b8 : Nat)
    (rest : List Nat) (pos : Nat) :
    read_int t (⟨0xd3 :: b1 :: b2 :: b3 :: b4 :: b5 :: b6 :: b7 :: b8 :: rest, pos⟩ : Bytes) =
      (fitInto BytesReadError t
        (toSigned 8 (((((((b1 * 256 + b2) * 256 + b3) * 256 + b4) * 256 + b5) * 256 + b6)
          * 256 + b7) * 256 + b8)), ⟨rest, pos + 9⟩) := by
  apply read_int_of_val
  simp only [read_int_val, read_marker_bytes_cons,
    (by decide : Marker.fromU8 0xd3 = Marker.I64), read_data_i64_bytes_cons, intDataStep]

theorem fitInto_eq (ε : Type) (t : IntType) (v : Int) :
    fitInto ε t v = if t.lo ≤ v ∧ v ≤ t.hi then .ok v else .error .OutOfRange := by
  unfold fitInto IntType.fromInt
  split_ifs with h <;> rfl

theorem read_int_mismatch (t : IntType) (b : Nat) (rest : List Nat) (pos : Nat)
    (h : (Marker.fromU8 b).isIntFamily = false) :
    read_int t (⟨b :: rest, pos⟩ : Bytes) =
      (.error (.TypeMismatch (Marker.fromU8 b)), ⟨rest, pos + 1⟩) := by
  simp only [read_int, read_int_val, read_marker_bytes_cons]
  cases hm : Marker.fromU8 b <;> simp_all [Marker.isIntFamily]

theorem read_int_val_family_err (t : IntType) (b : Nat) (rest : List Nat) (pos : Nat)
    (e : NumValueReadError BytesReadError) (rd : Bytes)
    (hf : (Marker.fromU8 b).isIntFamily = true)
    (h : read_int_val t (⟨b :: rest, pos⟩ : Bytes) = (.error e, rd)) :
    ∃ e2, e = .InvalidDataRead e2 := by
  simp only [read_int_val, read_marker_bytes_cons, intDataStep] at h
  split at h
  all_goals try (split at h <;> try simp_all)
  all_goals try (exact ⟨_, h.1.symm⟩)
  all_goals try simp_all
  all_goals cases hfm : Marker.fromU8 b <;> simp_all [Marker.isIntFamily]

/-- C1: positioned at an integer-family marker (fixed positive, fixed
negative, 8/16/32/64-bit unsigned or signed), `read_int` decodes the value
and succeeds returning it converted into the target `T` exactly when it fits
`T`'s range, failing with the out-of-range error otherwise (`fitInto` is that
checked-conversion step, unfolded by the penultimate conjunct); in particular
`[0xCD, 0x01, 0x2C]` decodes to 300 for the u16, i16, u32 and i64 targets
alike, and fails with out-of-range for the u8 target. -/
theorem claim_C1 :
    (∀ (t : IntType) (b : Nat), b < 256 → b ≤ 0x7f → ∀ (rest : List Nat) (pos : Nat),
      read_int t (⟨b :: rest, pos⟩ : Bytes) =
        (fitInto BytesReadError t b, ⟨rest, pos + 1⟩)) ∧
    (∀ (t : IntType) (b : Nat), b < 256 → 0xe0 ≤ b → ∀ (rest : List Nat) (pos : Nat),
      read_int t (⟨b :: rest, pos⟩ : Bytes) =
        (fitInto BytesReadError t ((b : Int) - 256), ⟨rest, pos + 1⟩)) ∧
    (∀ (t : IntType) (v : Nat) (rest : List Nat) (pos : Nat),
      read_int t (⟨0xcc :: v :: rest, pos⟩ : Bytes) =
        (fitInto BytesReadError t v, ⟨rest, pos + 2⟩)) ∧
    (∀ (t : IntType) (b1 b2 : Nat) (rest : List Nat) (pos : Nat),
      read_int t (⟨0xcd :: b1 :: b2 :: rest, pos⟩ : Bytes) =
        (fitInto BytesReadError t (b1 * 256 + b2), ⟨rest, pos + 3⟩)) ∧
    (∀ (t : IntType) (b1 b2 b3 b4 : Nat) (rest : List Nat) (pos : Nat),
      read_int t (⟨0xce :: b1 :: b2 :: b3 :: b4 :: rest, pos⟩ : Bytes) =
        (fitInto BytesReadError t (((b1 * 256 + b2) * 256 + b3) * 256 + b4),
          ⟨rest, pos + 5⟩)) ∧
    (∀ (t : IntType) (b1 b2 b3 b4 b5 b6 b7 b8 : Nat) (rest : List Nat) (pos : Nat),
      read_int t
          (⟨0xcf :: b1 :: b2 :: b3 :: b4 :: b5 :: b6 :: b7 :: b8 :: rest, pos⟩ : Bytes) =
        (fitInto BytesReadError t
          (((((((b1 * 256 + b2) * 256 + b3) * 256 + b4) * 256 + b5) * 256 + b6) * 256 + b7)
            * 256 + b8), ⟨rest, pos + 9⟩)) ∧
    (∀ (t : IntType) (v : Nat) (rest : List Nat) (pos : Nat),
      read_int t (⟨0xd0 :: v :: rest, pos⟩ : Bytes) =
        (fitInto BytesReadError t (toSigned 1 v), ⟨rest, pos + 2⟩)) ∧
    (∀ (t : IntType) (b1 b2 : Nat) (rest : List Nat) (pos : Nat),
      read_int t (⟨0xd1 :: b1 :: b2 :: rest, pos⟩ : Bytes) =
        (fitInto BytesReadError t (toSigned 2 (b1 * 256 + b2)), ⟨rest, pos + 3⟩)) ∧
    (∀ (t : IntType) (b1 b2 b3 b4 : Nat) (rest : List Nat) (pos : Nat),
      read_int t (⟨0xd2 :: b1 :: b2 :: b3 :: b4 :: rest, pos⟩ : Bytes) =
        (fitInto BytesReadError t (toSigned 4 (((b1 * 256 + b2) * 256 + b3) * 256 + b4)),
          ⟨rest, pos + 5⟩)) ∧
    (∀ (t : IntType) (b1 b2 b3 b4 b5 b6 b7 b8 : Nat) (rest : List Nat) (pos : Nat),
      read_int t
          (⟨0xd3 :: b1 :: b2 :: b3 :: b4 :: b5 :: b6 :: b7 :: b8 :: rest, pos⟩ : Bytes) =
        (fitInto BytesReadError t
          (toSigned 8
            (((((((b1 * 256 + b2) * 256 + b3) * 256 + b4) * 256 + b5) * 256 + b6) * 256 + b7)
              * 256 + b8)), ⟨rest, pos + 9⟩)) ∧
    (∀ (t : IntType) (v : Int),
      fitInto BytesReadError t v =
        if t.lo ≤ v ∧ v ≤ t.hi then .ok v else .error .OutOfRange) ∧
    (read_int tyU16 (⟨[0xcd, 0x01, 0x2c], 0⟩ : Bytes) = (.ok 300, ⟨[], 3⟩) ∧
     read_int tyI16 (⟨[0xcd, 0x01, 0x2c], 0⟩ : Bytes) = (.ok 300, ⟨[], 3⟩) ∧
     read_int tyU32 (⟨[0xcd, 0x01, 0x2c], 0⟩ : Bytes) = (.ok 300, ⟨[], 3⟩) ∧
     read_int tyI64 (⟨[0xcd, 0x01, 0x2c], 0⟩ : Bytes) = (.ok 300, ⟨[], 3⟩) ∧
     read_int tyU8 (⟨[0xcd, 0x01, 0x2c], 0⟩ : Bytes) = (.error .OutOfRange, ⟨[], 3⟩)) :=
  ⟨read_int_fixpos, read_int_fixneg, read_int_u8, read_int_u16, read_int_u32, read_int_u64,
   read_int_i8, read_int_i16, read_int_i32, read_int_i64, fitInto_eq BytesReadError,
   rfl, rfl, rfl, rfl, rfl⟩

theorem claim_C1_witness :
    read_int tyU8 (⟨[0x05, 0x99], 2⟩ : Bytes) =
      (fitInto BytesReadError tyU8 5, ⟨[0x99], 2 + 1⟩) ∧
    read_int tyI8 (⟨[0xe0], 0⟩ : Bytes) =
      (fitInto BytesReadError tyI8 ((0xe0 : Int) - 256), ⟨[], 0 + 1⟩) :=
  ⟨claim_C1.1 tyU8 0x05 (by decide) (by decide) [0x99] 2,
   claim_C1.2.1 tyI8 0xe0 (by decide) (by decide) [] 0⟩

theorem read_int_tm_sound (t : IntType) (s : Bytes) (m : Marker)
    (h : (read_int t s).1 = .error (.TypeMismatch m)) :
    (read_marker s).1 = .ok m ∧ m.isIntFamily = false := by
  obtain ⟨data, pos⟩ := s
  cases data with
  | nil =>
    rw [show read_int t (⟨[], pos⟩ : Bytes) =
        (.error (.InvalidMarkerRead (.InsufficientBytes 1 0 pos)), ⟨[], pos⟩) from by
      simp [read_int, read_int_val, read_marker_bytes_nil]] at h
    simp at h
  | cons b rest =>
    by_cases hf : (Marker.fromU8 b).isIntFamily = true
    · exfalso
      rcases hfull : read_int t (⟨b :: rest, pos⟩ : Bytes) with ⟨res, s2⟩
      rw [hfull] at h
      simp only at h
      subst h
      simp only [read_int] at hfull
      split at hfull
      · simp at hfull
      · simp at hfull
      · rename_i e rd' heq
        simp only [Prod.mk.injEq, Except.error.injEq] at hfull
        obtain ⟨he, -⟩ := hfull
        subst he
        obtain ⟨e2, he2⟩ := read_int_val_family_err t b rest pos _ rd' hf heq
        simp at he2
    · rw [read_int_mismatch t b rest pos (by simpa using hf)] at h
      simp only at h
      simp only [Except.error.injEq, NumValueReadError.TypeMismatch.injEq] at h
      subst h
      rw [read_marker_bytes_cons]
      exact ⟨rfl, by simpa using hf⟩

theorem read_int_oor_family (t : IntType) (s : Bytes)
    (h : (read_int t s).1 = .error .OutOfRange) :
    ∃ m, (read_marker s).1 = .ok m ∧ m.isIntFamily = true := by
  obtain ⟨data, pos⟩ := s
  cases data with
  | nil =>
    rw [show read_int t (⟨[], pos⟩ : Bytes) =
        (.error (.InvalidMarkerRead (.InsufficientBytes 1 0 pos)), ⟨[], pos⟩) from by
      simp [read_int, read_int_val, read_marker_bytes_nil]] at h
    simp at h
  | cons b rest =>
    by_cases hf : (Marker.fromU8 b).isIntFamily = true
    · exact ⟨Marker.fromU8 b, by rw [read_marker_bytes_cons], hf⟩
    · rw [read_int_mismatch t b rest pos (by simpa using hf)] at h
      simp at h

theorem read_int_nonint_tm (t : IntType) (s : Bytes) (m : Marker) (rd : Bytes)
    (hm : read_marker s = (.ok m, rd)) (hf : m.isIntFamily = false) :
    read_int t s = (.error (.TypeMismatch m), rd) := by
  obtain ⟨data, pos⟩ := s
  cases data with
  | nil =>
    rw [read_marker_bytes_nil] at hm
    simp at hm
  | cons b rest =>
    rw [read_marker_bytes_cons] at hm
    simp only [Prod.mk.injEq, Except.ok.injEq] at hm
    obtain ⟨hmm, hrd⟩ := hm
    subst hmm
    subst hrd
    exact read_int_mismatch t b rest pos hf

theorem read_int_val_ok_shape (t : IntType) (s : Bytes) (o : Option Int) (rd : Bytes)
    (h : read_int_val t s = (.ok o, rd)) : ∃ v : Int, o = t.fromInt v := by
  simp only [read_int_val, intDataStep] at h
  split at h
  all_goals try (split at h <;>
    first
    | (simp only [Prod.mk.injEq, Except.ok.injEq] at h; exact ⟨_, h.1.symm⟩)
    | simp at h)
  all_goals try (simp only [Prod.mk.injEq, Except.ok.injEq] at h; exact ⟨_, h.1.symm⟩)
  all_goals simp at h

theorem read_int_val_no_oor (t : IntType) (s : Bytes) (rd : Bytes)
    (h : read_int_val t s = (.error .OutOfRange, rd)) : False := by
  simp only [read_int_val, intDataStep] at h
  split at h <;> first | (split at h <;> simp_all) | simp_all

theorem read_int_oor_unfit (t : IntType) (s : Bytes)
    (h : (read_int t s).1 = .error .OutOfRange) :
    ∃ (v : Int) (rd : Bytes), read_int_val t s = (.ok (t.fromInt v), rd) ∧
      t.fromInt v = none ∧ ¬(t.lo ≤ v ∧ v ≤ t.hi) := by
  rcases hfull : read_int t s with ⟨res, s2⟩
  rw [hfull] at h
  simp only at h
  subst h
  simp only [read_int] at hfull
  split at hfull
  · simp at hfull
  · rename_i rd' heq
    obtain ⟨v, hv⟩ := read_int_val_ok_shape t s none rd' heq
    rw [hv] at heq
    refine ⟨v, rd', heq, hv.symm, ?_⟩
    intro hfit
    simp [IntType.fromInt, hfit] at hv
  · rename_i e rd' heq
    simp only [Prod.mk.injEq, Except.error.injEq] at hfull
    obtain ⟨he, -⟩ := hfull
    subst he
    exact absurd (read_int_val_no_oor t s rd' heq) not_false

/-- C9: `read_int` returns the out-of-range error only when the marker read
was one of the ten integer-family variants and the integer it decoded does
not fit the target type `T` (its checked conversion is `none`, i.e. the value
lies outside `T`'s range); every non-integer marker produces a type-mismatch
error carrying exactly that marker — never out-of-range. -/
theorem claim_C9 (t : IntType) (s : Bytes) :
    (∀ m, (read_int t s).1 = .error (.TypeMismatch m) →
      (read_marker s).1 = .ok m ∧ m.isIntFamily = false) ∧
    ((read_int t s).1 = .error .OutOfRange →
      ∃ m, (read_marker s).1 = .ok m ∧ m.isIntFamily = true) ∧
    (∀ (m : Marker) (rd : Bytes), read_marker s = (.ok m, rd) → m.isIntFamily = false →
      read_int t s = (.error (.TypeMismatch m), rd)) ∧
    ((read_int t s).1 = .error .OutOfRange →
      ∃ (v : Int) (rd : Bytes), read_int_val t s = (.ok (t.fromInt v), rd) ∧
        t.fromInt v = none ∧ ¬(t.lo ≤ v ∧ v ≤ t.hi)) :=
  ⟨read_int_tm_sound t s, read_int_oor_family t s,
   fun m rd hm hf => read_int_nonint_tm t s m rd hm hf, read_int_oor_unfit t s⟩

theorem claim_C9_witness :
    ((read_marker (⟨[0xc0, 7], 0⟩ : Bytes)).1 = .ok Marker.Null ∧
      Marker.Null.isIntFamily = false) ∧
    (∃ m, (read_marker (⟨[0xcd, 0x01, 0x2c], 0⟩ : Bytes)).1 = .ok m ∧
      m.isIntFamily = true) ∧
    read_int tyU8 (⟨[0xc0, 7], 0⟩ : Bytes) =
      (.error (.TypeMismatch Marker.Null), ⟨[7], 1⟩) ∧
    (∃ (v : Int) (rd : Bytes),
      read_int_val tyU8 (⟨[0xcd, 0x01, 0x2c], 0⟩ : Bytes) = (.ok (tyU8.fromInt v), rd) ∧
      tyU8.fromInt v = none ∧ ¬(tyU8.lo ≤ v ∧ v ≤ tyU8.hi)) :=
  ⟨(claim_C9 tyU8 ⟨[0xc0, 7], 0⟩).1 Marker.Null (by rfl),
   (claim_C9 tyU8 ⟨[0xcd, 0x01, 0x2c], 0⟩).2.1 (by rfl),
   (claim_C9 tyU8 ⟨[0xc0, 7], 0⟩).2.2.1 Marker.Null ⟨[7], 1⟩ (by rfl) (by rfl),
   (claim_C9 tyU8 ⟨[0xcd, 0x01, 0x2c], 0⟩).2.2.2 (by rfl)⟩

/-- C6: classification of a leading byte is total, pure and deterministic —
a function of the byte alone — and `read_marker` consumes exactly one byte
from the source regardless of the classification outcome, with no
backtracking. -/
theorem claim_C6 :
    (∀ b < 256, ∃! m : Marker, Marker.fromU8 b = m) ∧
    (∀ (b : Nat) (rest : List Nat) (pos : Nat),
      read_marker (⟨b :: rest, pos⟩ : Bytes) =
        (.ok (Marker.fromU8 b), ⟨rest, pos + 1⟩)) ∧
    (∀ (b : Nat) (rest1 rest2 : List Nat) (pos1 pos2 : Nat),
      (read_marker (⟨b :: rest1, pos1⟩ : Bytes)).1 =
        (read_marker (⟨b :: rest2, pos2⟩ : Bytes)).1) := by
  refine ⟨fun b _ => ⟨Marker.fromU8 b, rfl, fun m h => h.symm⟩, read_marker_bytes_cons, ?_⟩
  intro b rest1 rest2 pos1 pos2
  rw [read_marker_bytes_cons, read_marker_bytes_cons]

theorem claim_C6_witness :
    (∃! m : Marker, Marker.fromU8 0xca = m) ∧
    read_marker (⟨[0xca, 1, 2], 6⟩ : Bytes) =
      (.ok (Marker.fromU8 0xca), ⟨[1, 2], 6 + 1⟩) :=
  ⟨claim_C6.1 0xca (by decide), claim_C6.2.1 0xca [1, 2] 6⟩

/-- C4, refuted as stated: `read_exact_buf` is not atomic for every byte
source.  For a streaming source whose transport delivers one byte and then
ends, a two-byte `read_exact_buf` fails with unexpected-end-of-input after
consuming the byte: the caller-observable state is no longer the original
one, so the cursor has moved on failure. -/
theorem claim_C4_counterexample :
    RmpRead.read_exact_buf (⟨[.byte 0xaa]⟩ : StreamReader) 2 =
      (.error .UnexpectedEof, (⟨[]⟩ : StreamReader)) ∧
    (⟨[]⟩ : StreamReader) ≠ (⟨[.byte 0xaa]⟩ : StreamReader) := by
  exact ⟨rfl, by simp⟩

/-- C4, amended: for the borrowed-slice byte source, `read_exact_buf` is
atomic relative to the caller: with `n` bytes requested it either fills the
buffer completely (returning exactly `n` bytes) and advances the cursor by
exactly `n`, or fails with the unexpected-end-of-input error leaving the
caller-observable source state unchanged.  For a streaming source a failed
call may instead leave the cursor advanced past consumed bytes. -/
theorem claim_C4_amended (s : Bytes) (n : Nat) :
    (n ≤ s.bytes.length →
      RmpRead.read_exact_buf s n =
        (.ok (s.bytes.take n), ⟨s.bytes.drop n, s.currentPosition + n⟩) ∧
      (s.bytes.take n).length = n) ∧
    (s.bytes.length < n →
      RmpRead.read_exact_buf s n =
        (.error (.InsufficientBytes n s.bytes.length s.currentPosition), s)) := by
  obtain ⟨data, pos⟩ := s
  constructor
  · intro h
    exact ⟨bytes_read_exact_of_le data pos n h, by simp [List.length_take, h]⟩
  · intro h
    exact bytes_read_exact_of_gt data pos n h

theorem claim_C4_amended_witness :
    (RmpRead.read_exact_buf (⟨[1, 2, 3], 0⟩ : Bytes) 2 =
      (.ok (([1, 2, 3] : List Nat).take 2), ⟨([1, 2, 3] : List Nat).drop 2, 0 + 2⟩) ∧
      (([1, 2, 3] : List Nat).take 2).length = 2) ∧
    RmpRead.read_exact_buf (⟨[1, 2, 3], 0⟩ : Bytes) 5 =
      (.error (.InsufficientBytes 5 3 0), ⟨[1, 2, 3], 0⟩) :=
  ⟨(claim_C4_amended ⟨[1, 2, 3], 0⟩ 2).1 (by simp),
   (claim_C4_amended ⟨[1, 2, 3], 0⟩ 5).2 (by simp)⟩

theorem readExactStream_no_intr (evs : List StreamEvent) :
    ∀ n : Nat, (readExactStream evs n).1 ≠ .error .Interrupted := by
  induction evs with
  | nil => intro n; cases n <;> simp [readExactStream]
  | cons ev evs ih =>
    intro n
    cases n with
    | zero => simp [readExactStream]
    | succ n =>
      cases ev with
      | byte b =>
        simp only [readExactStream]
        rcases h : readExactStream evs n with ⟨res, evs'⟩
        have hne := ih n
        rw [h] at hne
        cases res <;> simp_all
      | eof => simp [readExactStream]
      | fault k =>
        by_cases hk : k = ErrorKind.Interrupted
        · subst hk
          simpa [readExactStream] using ih (n + 1)
        · simp [readExactStream, hk]

theorem stream_read_exact_err (s : StreamReader) (n : Nat) (e : ErrorKind)
    (rd : StreamReader) (h : RmpRead.read_exact_buf s n = (.error e, rd)) :
    e ≠ .Interrupted := by
  intro hc
  subst hc
  have hni := readExactStream_no_intr s.events n
  simp only [RmpRead.read_exact_buf, StreamReader.read_exact_buf] at h
  rcases hr : readExactStream s.events n with ⟨res, evs'⟩
  rw [hr] at h hni
  simp only [Prod.mk.injEq] at h
  exact hni (by simp [h.1])

theorem stream_read_u8_err (s : StreamReader) (e : ErrorKind) (rd : StreamReader)
    (h : RmpRead.read_u8 s = (.error e, rd)) : e ≠ .Interrupted := by
  simp only [RmpRead.read_u8] at h
  split at h
  · simp at h
  · rename_i e2 rd2 heq
    simp only [Prod.mk.injEq, Except.error.injEq] at h
    obtain ⟨he, -⟩ := h
    subst he
    exact stream_read_exact_err s 1 e2 rd2 heq

theorem stream_read_beN_err (size : Nat) (s : StreamReader) (e : ErrorKind)
    (rd : StreamReader) (h : RmpRead.read_beN size s = (.error e, rd)) :
    e ≠ .Interrupted := by
  simp only [RmpRead.read_beN] at h
  split at h
  · simp at h
  · rename_i e2 rd2 heq
    simp only [Prod.mk.injEq, Except.error.injEq] at h
    obtain ⟨he, -⟩ := h
    subst he
    exact stream_read_exact_err s size e2 rd2 heq

theorem stream_read_marker_err (s : StreamReader) (e : MarkerReadError ErrorKind)
    (rd : StreamReader) (h : read_marker s = (.error e, rd)) : e.e ≠ .Interrupted := by
  simp only [read_marker] at h
  split at h
  · simp at h
  · rename_i e2 rd2 heq
    simp only [Prod.mk.injEq, Except.error.injEq] at h
    obtain ⟨he, -⟩ := h
    subst he
    exact stream_read_u8_err s e2 rd2 heq

theorem stream_data_u_err (s : StreamReader) (e : ErrorKind) (rd : StreamReader) (size : Nat)
    (h : Prod.map (fun x => Except.map Int.ofNat x) id (RmpRead.read_beN size s) =
      (.error e, rd)) : e ≠ .Interrupted := by
  rcases hr : RmpRead.read_beN size s with ⟨res, rd2⟩
  rw [hr] at h
  cases res with
  | ok v => simp [Prod.map, Except.map] at h
  | error e2 =>
    simp only [Prod.map, Except.map, id_eq, Prod.mk.injEq, Except.error.injEq] at h
    obtain ⟨he, -⟩ := h
    subst he
    exact stream_read_beN_err size s e2 rd2 hr

theorem stream_data_i_err (s : StreamReader) (e : ErrorKind) (rd : StreamReader) (size : Nat)
    (h : (match RmpRead.read_beN size s with
          | (.ok v, rd') => ((.ok (toSigned size v) : Except ErrorKind Int), rd')
          | (.error e2, rd') => (.error e2, rd')) = (.error e, rd)) : e ≠ .Interrupted := by
  rcases hr : RmpRead.read_beN size s with ⟨res, rd2⟩
  rw [hr] at h
  cases res with
  | ok v => simp at h
  | error e2 =>
    simp only [Prod.mk.injEq, Except.error.injEq] at h
    obtain ⟨he, -⟩ := h
    subst he
    exact stream_read_beN_err size s e2 rd2 hr

theorem stream_data_i8_err (s : StreamReader) (e : ErrorKind) (rd : StreamReader)
    (h : RmpRead.read_data_i8 s = (.error e, rd)) : e ≠ .Interrupted := by
  simp only [RmpRead.read_data_i8, RmpRead.read_data_u8] at h
  split at h
  · simp at h
  · rename_i e2 rd2 heq
    simp only [Prod.mk.injEq, Except.error.injEq] at h
    obtain ⟨he, -⟩ := h
    subst he
    exact stream_read_u8_err s e2 rd2 heq

theorem vErrIntr_marker (x : ErrorKind) (hx : x ≠ .Interrupted) :
    vErrIntr (.InvalidMarkerRead x) = false := by
  cases x <;> simp_all [vErrIntr]

theorem vErrIntr_data (x : ErrorKind) (hx : x ≠ .Interrupted) :
    vErrIntr (.InvalidDataRead x) = false := by
  cases x <;> simp_all [vErrIntr]

theorem nErrIntr_marker (x : ErrorKind) (hx : x ≠ .Interrupted) :
    nErrIntr (.InvalidMarkerRead x) = false := by
  cases x <;> simp_all [nErrIntr]

theorem nErrIntr_data (x : ErrorKind) (hx : x ≠ .Interrupted) :
    nErrIntr (.InvalidDataRead x) = false := by
  cases x <;> simp_all [nErrIntr]

theorem stream_read_nil_no_intr (s : StreamReader) (e : ValueReadError ErrorKind)
    (rd : StreamReader) (h : read_nil s = (.error e, rd)) : vErrIntr e = false := by
  simp only [read_nil] at h
  split at h
  · simp at h
  · simp only [Prod.mk.injEq, Except.error.injEq] at h
    obtain ⟨he, -⟩ := h
    subst he
    rfl
  · rename_i e2 rd2 heq
    simp only [Prod.mk.injEq, Except.error.injEq] at h
    obtain ⟨he, -⟩ := h
    subst he
    exact vErrIntr_marker _ (stream_read_marker_err s e2 rd2 heq)

theorem stream_read_bool_no_intr (s : StreamReader) (e : ValueReadError ErrorKind)
    (rd : StreamReader) (h : read_bool s = (.error e, rd)) : vErrIntr e = false := by
  simp only [read_bool] at h
  split at h
  · simp at h
  · simp at h
  · simp only [Prod.mk.injEq, Except.error.injEq] at h
    obtain ⟨he, -⟩ := h
    subst he
    rfl
  · rename_i e2 rd2 heq
    simp only [Prod.mk.injEq, Except.error.injEq] at h
    obtain ⟨he, -⟩ := h
    subst he
    exact vErrIntr_marker _ (stream_read_marker_err s e2 rd2 heq)

theorem stream_data_u8_mapped_err (s : StreamReader) (e : ErrorKind) (rd : StreamReader)
    (h : Prod.map (fun x => Except.map Int.ofNat x) id (RmpRead.read_data_u8 s) =
      (.error e, rd)) : e ≠ .Interrupted := by
  rcases hr : RmpRead.read_data_u8 s with ⟨res, rd2⟩
  rw [hr] at h
  cases res with
  | ok v => simp [Prod.map, Except.map] at h
  | error e2 =>
    simp only [Prod.map, Except.map, id_eq, Prod.mk.injEq, Except.error.injEq] at h
    obtain ⟨he, -⟩ := h
    subst he
    exact stream_read_u8_err s e2 rd2 hr

theorem stream_data_i16_err (s : StreamReader) (e : ErrorKind) (rd : StreamReader)
    (h : RmpRead.read_data_i16 s = (.error e, rd)) : e ≠ .Interrupted := by
  simp only [RmpRead.read_data_i16] at h
  split at h
  · simp at h
  · rename_i e2 rd2 heq
    simp only [Prod.mk.injEq, Except.error.injEq] at h
    obtain ⟨he, -⟩ := h
    subst he
    exact stream_read_beN_err 2 s e2 rd2 heq

theorem stream_data_i32_err (s : StreamReader) (e : ErrorKind) (rd : StreamReader)
    (h : RmpRead.read_data_i32 s = (.error e, rd)) : e ≠ .Interrupted := by
  simp only [RmpRead.read_data_i32] at h
  split at h
  · simp at h
  · rename_i e2 rd2 heq
    simp only [Prod.mk.injEq, Except.error.injEq] at h
    obtain ⟨he, -⟩ := h
    subst he
    exact stream_read_beN_err 4 s e2 rd2 heq

theorem stream_data_i64_err (s : StreamReader) (e : ErrorKind) (rd : StreamReader)
    (h : RmpRead.read_data_i64 s = (.error e, rd)) : e ≠ .Interrupted := by
  simp only [RmpRead.read_data_i64] at h
  split at h
  · simp at h
  · rename_i e2 rd2 heq
    simp only [Prod.mk.injEq, Except.error.injEq] at h
    obtain ⟨he, -⟩ := h
    subst he
    exact stream_read_beN_err 8 s e2 rd2 heq

theorem stream_read_array_len_no_intr (s : StreamReader) (e : ValueReadError ErrorKind)
    (rd : StreamReader) (h : read_array_len s = (.error e, rd)) : vErrIntr e = false := by
  simp only [read_array_len] at h
  split at h
  · simp at h
  · split at h
    · simp at h
    · rename_i e2 rd2 heq
      simp only [Prod.mk.injEq, Except.error.injEq] at h
      obtain ⟨he, -⟩ := h
      subst he
      exact vErrIntr_data _ (stream_read_beN_err 2 _ e2 rd2 heq)
  · split at h
    · simp at h
    · rename_i e2 rd2 heq
      simp only [Prod.mk.injEq, Except.error.injEq] at h
      obtain ⟨he, -⟩ := h
      subst he
      exact vErrIntr_data _ (stream_read_beN_err 4 _ e2 rd2 heq)
  · simp only [Prod.mk.injEq, Except.error.injEq] at h
    obtain ⟨he, -⟩ := h
    subst he
    rfl
  · rename_i e2 rd2 heq
    simp only [Prod.mk.injEq, Except.error.injEq] at h
    obtain ⟨he, -⟩ := h
    subst he
    exact vErrIntr_marker _ (stream_read_marker_err s e2 rd2 heq)

theorem stream_read_bin_len_no_intr (s : StreamReader) (e : ValueReadError ErrorKind)
    (rd : StreamReader) (h : read_bin_len s = (.error e, rd)) : vErrIntr e = false := by
  simp only [read_bin_len] at h
  split at h
  · split at h
    · simp at h
    · rename_i e2 rd2 heq
      simp only [Prod.mk.injEq, Except.error.injEq] at h
      obtain ⟨he, -⟩ := h
      subst he
      refine vErrIntr_data _ (stream_read_u8_err _ e2 rd2 heq)
  · split at h
    · simp at h
    · rename_i e2 rd2 heq
      simp only [Prod.mk.injEq, Except.error.injEq] at h
      obtain ⟨he, -⟩ := h
      subst he
      exact vErrIntr_data _ (stream_read_beN_err 2 _ e2 rd2 heq)
  · split at h
    · simp at h
    · rename_i e2 rd2 heq
      simp only [Prod.mk.injEq, Except.error.injEq] at h
      obtain ⟨he, -⟩ := h
      subst he
      exact vErrIntr_data _ (stream_read_beN_err 4 _ e2 rd2 heq)
  · simp only [Prod.mk.injEq, Except.error.injEq] at h
    obtain ⟨he, -⟩ := h
    subst he
    rfl
  · rename_i e2 rd2 heq
    simp only [Prod.mk.injEq, Except.error.injEq] at h
    obtain ⟨he, -⟩ := h
    subst he
    exact vErrIntr_marker _ (stream_read_marker_err s e2 rd2 heq)

theorem stream_marker_to_len_no_intr (s : StreamReader) (m : Marker)
    (e : ValueReadError ErrorKind) (rd : StreamReader)
    (h : marker_to_len s m = (.error e, rd)) : vErrIntr e = false := by
  simp only [marker_to_len] at h
  split at h
  · simp at h
  · split at h
    · simp at h
    · rename_i e2 rd2 heq
      simp only [Prod.mk.injEq, Except.error.injEq] at h
      obtain ⟨he, -⟩ := h
      subst he
      exact vErrIntr_data _ (stream_read_beN_err 2 _ e2 rd2 heq)
  · split at h
    · simp at h
    · rename_i e2 rd2 heq
      simp only [Prod.mk.injEq, Except.error.injEq] at h
      obtain ⟨he, -⟩ := h
      subst he
      exact vErrIntr_data _ (stream_read_beN_err 4 _ e2 rd2 heq)
  · simp only [Prod.mk.injEq, Except.error.injEq] at h
    obtain ⟨he, -⟩ := h
    subst he
    rfl

theorem stream_read_map_len_no_intr (s : StreamReader) (e : ValueReadError ErrorKind)
    (rd : StreamReader) (h : read_map_len s = (.error e, rd)) : vErrIntr e = false := by
  simp only [read_map_len] at h
  split at h
  · rename_i m rd2 heq2
    exact stream_marker_to_len_no_intr rd2 m e rd h
  · rename_i e2 rd2 heq
    simp only [Prod.mk.injEq, Except.error.injEq] at h
    obtain ⟨he, -⟩ := h
    subst he
    exact vErrIntr_marker _ (stream_read_marker_err s e2 rd2 heq)

theorem stream_read_int_val_err (t : IntType) (s : StreamReader)
    (e : NumValueReadError ErrorKind) (rd : StreamReader)
    (h : read_int_val t s = (.error e, rd)) : nErrIntr e = false := by
  simp only [read_int_val, intDataStep] at h
  split at h
  · simp at h
  · simp at h
  all_goals try (
    split at h
    · simp at h
    · rename_i e2 rd2 heq
      simp only [Prod.mk.injEq, Except.error.injEq] at h
      obtain ⟨he, -⟩ := h
      subst he
      first
      | exact nErrIntr_data _ (stream_data_u8_mapped_err _ e2 rd2 heq)
      | exact nErrIntr_data _ (stream_data_u_err _ e2 rd2 2 heq)
      | exact nErrIntr_data _ (stream_data_u_err _ e2 rd2 4 heq)
      | exact nErrIntr_data _ (stream_data_u_err _ e2 rd2 8 heq)
      | exact nErrIntr_data _ (stream_data_i8_err _ e2 rd2 heq)
      | exact nErrIntr_data _ (stream_data_i16_err _ e2 rd2 heq)
      | exact nErrIntr_data _ (stream_data_i32_err _ e2 rd2 heq)
      | exact nErrIntr_data _ (stream_data_i64_err _ e2 rd2 heq))
  · simp only [Prod.mk.injEq, Except.error.injEq] at h
    obtain ⟨he, -⟩ := h
    subst he
    rfl
  · rename_i e2 rd2 heq
    simp only [Prod.mk.injEq, Except.error.injEq] at h
    obtain ⟨he, -⟩ := h
    subst he
    exact nErrIntr_marker _ (stream_read_marker_err s e2 rd2 heq)

theorem stream_read_int_no_intr (t : IntType) (s : StreamReader)
    (e : NumValueReadError ErrorKind) (rd : StreamReader)
    (h : read_int t s = (.error e, rd)) : nErrIntr e = false := by
  simp only [read_int] at h
  split at h
  · simp at h
  · simp only [Prod.mk.injEq, Except.error.injEq] at h
    obtain ⟨he, -⟩ := h
    subst he
    rfl
  · rename_i e2 rd2 heq
    simp only [Prod.mk.injEq, Except.error.injEq] at h
    obtain ⟨he, -⟩ := h
    subst he
    exact stream_read_int_val_err t s e2 rd2 heq

/-- C7: the transient interruption signal from the underlying transport is
retried internally and transparently — the exact-read loop never surfaces it,
decode operations never return an error whose underlying cause is the
interruption condition — while every other error kind is surfaced immediately,
never retried or suppressed. -/
theorem claim_C7 :
    (∀ (evs : List StreamEvent) (n : Nat),
      (readExactStream evs n).1 ≠ .error .Interrupted) ∧
    (∀ (evs : List StreamEvent) (n : Nat),
      readExactStream (.fault .Interrupted :: evs) (n + 1) = readExactStream evs (n + 1)) ∧
    (∀ (k : ErrorKind) (evs : List StreamEvent) (n : Nat), k ≠ .Interrupted →
      readExactStream (.fault k :: evs) (n + 1) = (.error k, evs)) ∧
    (∀ (s : StreamReader) (e : MarkerReadError ErrorKind) (rd : StreamReader),
      read_marker s = (.error e, rd) → e.e ≠ .Interrupted) ∧
    (∀ (s : StreamReader) (e : ValueReadError ErrorKind) (rd : StreamReader),
      (read_nil s = (.error e, rd) → vErrIntr e = false) ∧
      (read_bool s = (.error e, rd) → vErrIntr e = false) ∧
      (read_array_len s = (.error e, rd) → vErrIntr e = false) ∧
      (read_map_len s = (.error e, rd) → vErrIntr e = false) ∧
      (read_bin_len s = (.error e, rd) → vErrIntr e = false)) ∧
    (∀ (t : IntType) (s : StreamReader) (e : NumValueReadError ErrorKind)
        (rd : StreamReader),
      read_int t s = (.error e, rd) → nErrIntr e = false) := by
  refine ⟨readExactStream_no_intr, ?_, ?_, stream_read_marker_err, ?_, stream_read_int_no_intr⟩
  · intro evs n
    simp [readExactStream]
  · intro k evs n hk
    simp [readExactStream, hk]
  · intro s e rd
    exact ⟨stream_read_nil_no_intr s e rd, stream_read_bool_no_intr s e rd,
      stream_read_array_len_no_intr s e rd, stream_read_map_len_no_intr s e rd,
      stream_read_bin_len_no_intr s e rd⟩

theorem claim_C7_witness :
    readExactStream [StreamEvent.fault (ErrorKind.Other 13)] 1 =
      (.error (ErrorKind.Other 13), []) ∧
    vErrIntr (ValueReadError.TypeMismatch Marker.F32) = false :=
  ⟨claim_C7.2.2.1 (ErrorKind.Other 13) [] 0 (by decide),
   (claim_C7.2.2.2.2.1 ⟨[StreamEvent.byte 0xca]⟩ (ValueReadError.TypeMismatch Marker.F32)
     ⟨[]⟩).1 (by rfl)⟩

end Rmp
